import Mathlib

/-!
# Resource handlers of the example Terraform provider

A shallow embedding of the `fnConvert` methods of
`terraform-provider-example/internal/provider` (files `resource_set_nested.go`,
`set_nested_resource.go`, `resource_computed.go`) together with the slice of the
plugin framework they touch: three-state attribute values (null, unknown, known),
diagnostics, and the conversions between framework collections and Go slices.

Go methods with pointer receivers that mutate the receiver and return diagnostics
become functions returning the pair (receiver after the call, diagnostics).

Further parts: the `Create`, `Read` and `Update` handlers with the framework calls as
parameters; the attribute table of `(*ResourceComputed).Schema` with the reconciliation
rules of the specification; the string validators of `regex_resource.go`,
`resource_regex.go` and `modifier_resource.go`, whose patterns are matched by a
derivative matcher proved equal to the language semantics; the `/echo` handler of
`echo/main.go`; `Configure` of `resource_set_nested.go` and `NewYarn` of
`go-hadoop-yarn/yarn.go`.

Diagnostics are collected with the framework method `Append`, which skips a diagnostic
that the collection already holds.
-/

namespace BGo

/-! ## Framework values -/

/-- Framework `types.String`: null, unknown, or a known Go string. -/
inductive TfString where
  | null
  | unknown
  | value (s : String)
  deriving DecidableEq, Repr

/-- Framework `types.Bool`: null, unknown, or a known Go bool. -/
inductive TfBool where
  | null
  | unknown
  | value (b : Bool)
  deriving DecidableEq, Repr

/-- Method `IsNull` of `types.String`. -/
def TfString.IsNull : TfString → Bool
  | .null => true
  | _ => false

/-- Method `IsUnknown` of `types.String`. -/
def TfString.IsUnknown : TfString → Bool
  | .unknown => true
  | _ => false

/-- Severity of a framework diagnostic. -/
inductive Severity where
  | warning
  | error
  deriving DecidableEq, Repr

/-- One framework diagnostic (`diag.Diagnostic`). -/
structure Diagnostic where
  Severity : Severity
  Summary : String
  Detail : String
  deriving DecidableEq, Repr

/-- Framework `diag.Diagnostics`: an ordered list of diagnostics; Go `nil` is `[]`. -/
abbrev Diagnostics := List Diagnostic

/-- Method `HasError` of `diag.Diagnostics`. -/
def HasError (ds : Diagnostics) : Bool :=
  ds.any (fun d => d.Severity == Severity.error)

/-- Method `Append` of `diag.Diagnostics`: every incoming diagnostic that the collection
does not hold yet is added at the end, in order; a duplicate is skipped. -/
def Diagnostics.Append : Diagnostics → Diagnostics → Diagnostics
  | diags, [] => diags
  | diags, d :: rest =>
    Diagnostics.Append (if diags.contains d then diags else diags ++ [d]) rest

/-- Method `AddError` of `diag.Diagnostics`: `Append` of one error diagnostic with the
given summary and detail. -/
def Diagnostics.AddError (diags : Diagnostics) (summary detail : String) : Diagnostics :=
  Diagnostics.Append diags [⟨Severity.error, summary, detail⟩]

/-- Framework collection value (`types.Set` and `types.List` share this shape): null,
unknown, or a known sequence of elements kept in the order the host delivered them. -/
inductive TfColl (α : Type) where
  | null
  | unknown
  | elems (xs : List α)
  deriving DecidableEq, Repr

/-- Method `IsNull` of `types.Set` and `types.List`. -/
def TfColl.IsNull {α : Type} : TfColl α → Bool
  | .null => true
  | _ => false

/-- Method `IsUnknown` of `types.Set` and `types.List`. -/
def TfColl.IsUnknown {α : Type} : TfColl α → Bool
  | .unknown => true
  | _ => false

/-- Error reported by the framework reflection when an unknown value is decoded into a
Go target that cannot hold unknown. -/
def unhandledUnknown : Diagnostic :=
  ⟨Severity.error, "Value Conversion Error", "unhandled unknown value"⟩

/-- Error reported by the framework reflection when a null value is decoded into a
Go target that cannot hold null. -/
def unhandledNull : Diagnostic :=
  ⟨Severity.error, "Value Conversion Error", "unhandled null value"⟩

/-- Framework `ElementsAs(ctx, &target, false)` for a collection of objects decoded into a
slice of structs whose fields are framework values. A null collection gives the nil
slice, an unknown collection reports an error and leaves the target nil, a known
collection gives its elements in order. -/
def TfColl.ElementsAs {α : Type} : TfColl α → List α × Diagnostics
  | .null => ([], [])
  | .unknown => ([], [unhandledUnknown])
  | .elems xs => (xs, [])

/-- Framework `types.SetValueFrom` and `types.ListValueFrom` on a slice whose element
type matches the declared element type: a known collection of the slice elements, with
no diagnostics. -/
def ValueFrom {α : Type} (xs : List α) : TfColl α × Diagnostics :=
  (TfColl.elems xs, [])

/-- Go `fmt.Sprintf(pre + "%d", i)` for a non-negative index `i`: the text `pre` followed
by the decimal rendering of `i`. -/
def Sprintf (pre : String) (i : Nat) : String :=
  pre ++ Nat.repr i

/-! ## resource_set_nested.go -/

/-- Struct `SetNestedModel` of `resource_set_nested.go`. -/
structure SetNestedModel where
  Uuid : TfString
  FixedIp : TfString
  FixedIpV4 : TfString
  Port : TfString
  Mac : TfString
  EnableGateway : TfBool
  deriving DecidableEq, Repr

/-- Struct `ResourceSetNestedModel` of `resource_set_nested.go`. -/
structure ResourceSetNestedModel where
  Id : TfString
  SetNested : TfColl SetNestedModel
  deriving DecidableEq, Repr

/-- Body of the `for i, model := range sSetNestedModels` loop of
`ResourceSetNestedModel.fnConvert`: the value of `model` that is appended. -/
def ResourceSetNestedModel.loopBody (i : Nat) (model : SetNestedModel) : SetNestedModel :=
  let model := { model with Port := TfString.value (Sprintf "port_id_" i) }
  let model := { model with Mac := TfString.value (Sprintf "mac_address_" i) }
  let mFixedIp := model.FixedIp
  if mFixedIp.IsNull || mFixedIp.IsUnknown then
    let model := { model with FixedIp := TfString.value (Sprintf "fixed_ip_" i) }
    { model with FixedIpV4 := TfString.value (Sprintf "fixed_ip_v4_" i) }
  else
    { model with FixedIpV4 := mFixedIp }

/-- The range loop of `ResourceSetNestedModel.fnConvert`: index `i`, the elements still to
visit, and the slice `processedSetNestedModels` built so far. -/
def ResourceSetNestedModel.rangeLoop :
    Nat → List SetNestedModel → List SetNestedModel → List SetNestedModel
  | _, [], processed => processed
  | i, model :: rest, processed =>
    ResourceSetNestedModel.rangeLoop (i + 1) rest
      (processed ++ [ResourceSetNestedModel.loopBody i model])

/-- Method `(*ResourceSetNestedModel).fnConvert`. The diagnostics returned by
`ElementsAs` are dropped, as in the source. -/
def ResourceSetNestedModel.fnConvert (s : ResourceSetNestedModel) :
    ResourceSetNestedModel × Diagnostics :=
  let diags : Diagnostics := []
  let sSetNested := s.SetNested
  let sSetNestedModels := sSetNested.ElementsAs.1
  let processedSetNestedModels := ResourceSetNestedModel.rangeLoop 0 sSetNestedModels []
  if processedSetNestedModels.length > 0 then
    let r := ValueFrom processedSetNestedModels
    let diags := Diagnostics.Append diags r.2
    if HasError diags then
      (s, diags)
    else
      ({ s with SetNested := r.1 }, diags)
  else
    (s, diags)

/-- The elements of the `set_nested` attribute after `fnConvert` ran on a model whose
`set_nested` is the known collection `xs`. -/
def ResourceSetNestedModel.converted (id : TfString) (xs : List SetNestedModel) :
    List SetNestedModel :=
  (ResourceSetNestedModel.fnConvert ⟨id, TfColl.elems xs⟩).1.SetNested.ElementsAs.1

/-! ## set_nested_resource.go -/

namespace set_nested_resource

/-- Struct `SetNestedModel` of `set_nested_resource.go` (no `fixed_ip_v4` field). -/
structure SetNestedModel where
  Uuid : TfString
  FixedIp : TfString
  Port : TfString
  Mac : TfString
  EnableGateway : TfBool
  deriving DecidableEq, Repr

end set_nested_resource

/-- Struct `SetNestedResourceModel` of `set_nested_resource.go`. -/
structure SetNestedResourceModel where
  Id : TfString
  SetNested : TfColl set_nested_resource.SetNestedModel
  deriving DecidableEq, Repr

/-- Body of the range loop of `SetNestedResourceModel.fnConvert`: the final values of the
loop-local variables `model` (a copy of the slice element) and `mFixedIp`. -/
def SetNestedResourceModel.loopBody (i : Nat) (model : set_nested_resource.SetNestedModel) :
    set_nested_resource.SetNestedModel × TfString :=
  let model := { model with Port := TfString.value (Sprintf "port_id_" i) }
  let model := { model with Mac := TfString.value (Sprintf "mac_address_" i) }
  let mFixedIp := model.FixedIp
  if mFixedIp.IsNull || mFixedIp.IsUnknown then
    (model, TfString.value (Sprintf "fixed_ip_" i))
  else
    (model, mFixedIp)

/-- The range loop of `SetNestedResourceModel.fnConvert`. The loop variable `model` is a
copy of the slice element, and nothing is stored back, so the slice `sSetNestedModels`
is threaded through unchanged. -/
def SetNestedResourceModel.rangeLoop (sSetNestedModels : List set_nested_resource.SetNestedModel) :
    Nat → List set_nested_resource.SetNestedModel → List set_nested_resource.SetNestedModel
  | _, [] => sSetNestedModels
  | i, model :: rest =>
    let _locals := SetNestedResourceModel.loopBody i model
    SetNestedResourceModel.rangeLoop sSetNestedModels (i + 1) rest

/-- Method `(*SetNestedResourceModel).fnConvert`. -/
def SetNestedResourceModel.fnConvert (s : SetNestedResourceModel) :
    SetNestedResourceModel × Diagnostics :=
  let diags : Diagnostics := []
  let sSetNested := s.SetNested
  let sSetNestedModels := sSetNested.ElementsAs.1
  let sSetNestedModels := SetNestedResourceModel.rangeLoop sSetNestedModels 0 sSetNestedModels
  if sSetNestedModels.length > 0 then
    let r := ValueFrom sSetNestedModels
    let diags := Diagnostics.Append diags r.2
    ({ s with SetNested := r.1 }, diags)
  else
    (s, diags)

/-! ## resource_computed.go -/

/-- Struct `ResourceComputedModel` of `resource_computed.go`. -/
structure ResourceComputedModel where
  Id : TfString
  Replace : TfString
  ReplaceIfConfigured : TfString
  UseStateForUnknown : TfString
  ListOptional : TfColl TfString
  deriving DecidableEq, Repr

/-- Decoding of the elements of a list of `types.String` into Go strings: the first
element that is null or unknown stops the decoding with the matching error. -/
def decodeStrings : List TfString → Except Diagnostic (List String)
  | [] => Except.ok []
  | TfString.null :: _ => Except.error unhandledNull
  | TfString.unknown :: _ => Except.error unhandledUnknown
  | TfString.value v :: rest =>
    match decodeStrings rest with
    | Except.ok vs => Except.ok (v :: vs)
    | Except.error d => Except.error d

/-- Framework `ElementsAs(ctx, &list, false)` for a list of strings decoded into a Go
`[]string`. On an error the target keeps its nil value. -/
def ElementsAsStrings : TfColl TfString → List String × Diagnostics
  | .null => ([], [])
  | .unknown => ([], [unhandledUnknown])
  | .elems xs =>
    match decodeStrings xs with
    | Except.ok vs => (vs, [])
    | Except.error d => ([], [d])

/-- The loop `for i, v := range list` with body `list[i] = v + "_replace"` of
`ResourceComputedModel.fnConvert`: index `i`, the values still to visit, and the slice
being overwritten in place. -/
def ResourceComputedModel.rangeLoop : Nat → List String → List String → List String
  | _, [], list => list
  | i, v :: rest, list =>
    ResourceComputedModel.rangeLoop (i + 1) rest (list.set i (v ++ "_replace"))

/-- Method `(*ResourceComputedModel).fnConvert`. Every path that does not return early
ends in `return nil`. -/
def ResourceComputedModel.fnConvert (s : ResourceComputedModel) :
    ResourceComputedModel × Diagnostics :=
  let listOptional := s.ListOptional
  if !listOptional.IsNull && !listOptional.IsUnknown then
    let r := ElementsAsStrings listOptional
    let list := r.1
    let diags := r.2
    if HasError diags then
      (s, diags)
    else if list.length > 0 then
      let list := ResourceComputedModel.rangeLoop 0 list list
      let r2 := ValueFrom (list.map TfString.value)
      let diags := Diagnostics.Append diags r2.2
      if HasError diags then
        (s, diags)
      else
        ({ s with ListOptional := r2.1 }, [])
    else
      (s, [])
  else
    (s, [])

/-- Framework response of a handler call: the state carried back to the host and the
diagnostics accumulated so far. -/
structure Response (σ : Type) where
  State : σ
  Diagnostics : Diagnostics

/-- Method `(*ResourceComputed).Read`. The framework calls are parameters: `reqStateGet`
is the outcome of `req.State.Get(ctx, &data)` (decoded model and diagnostics), and
`stateSet` is `resp.State.Set(ctx, &data)` (encoded state and diagnostics). -/
def ResourceComputed.Read {σ : Type} (reqStateGet : ResourceComputedModel × Diagnostics)
    (stateSet : ResourceComputedModel → σ × Diagnostics) (resp : Response σ) : Response σ :=
  let data := reqStateGet.1
  let resp := { resp with Diagnostics := Diagnostics.Append resp.Diagnostics reqStateGet.2 }
  if HasError resp.Diagnostics then
    resp
  else
    let r := ResourceComputedModel.fnConvert data
    let data := r.1
    let diags := r.2
    let resp := { resp with Diagnostics := Diagnostics.Append resp.Diagnostics diags }
    if HasError resp.Diagnostics then
      resp
    else
      let w := stateSet data
      { State := w.1, Diagnostics := Diagnostics.Append resp.Diagnostics w.2 }

/-- A refresh of a state `prior` that decodes and encodes without diagnostics: the state
held by the response after `Read`. -/
def ResourceComputed.refresh (prior : ResourceComputedModel) : ResourceComputedModel :=
  (ResourceComputed.Read (prior, []) (fun data => (data, [])) ⟨prior, []⟩).State

/-- Insertion of `e` at position `k` of `xs`. -/
def insertAt {α : Type} (k : Nat) (e : α) (xs : List α) : List α :=
  xs.take k ++ e :: xs.drop k

/-! ## Sample inputs -/

/-- Element `a`: uuid "a", port already known as "p0", no fixed_ip configured. -/
def sampleA : SetNestedModel :=
  ⟨TfString.value "a", TfString.null, TfString.unknown, TfString.value "p0",
    TfString.unknown, TfBool.value false⟩

/-- Element `b`: uuid "b", fixed_ip configured, computed fields still unknown. -/
def sampleB : SetNestedModel :=
  ⟨TfString.value "b", TfString.value "10.0.0.2", TfString.unknown, TfString.unknown,
    TfString.unknown, TfBool.value true⟩

/-- Element `x`: uuid "x", everything else unset. -/
def sampleX : SetNestedModel :=
  ⟨TfString.value "x", TfString.unknown, TfString.unknown, TfString.unknown,
    TfString.unknown, TfBool.value false⟩

/-- A state of the computed resource whose `list_optional` is the known list `xs` of
known strings, all other attributes null. -/
def sampleComputed (xs : List String) : ResourceComputedModel :=
  ⟨TfString.null, TfString.null, TfString.null, TfString.null,
    TfColl.elems (xs.map TfString.value)⟩

/-- A planned element of `set_nested_resource.go`: uuid "a", fixed_ip not configured,
port and mac unknown until the provider computes them. -/
def set_nested_resource.samplePlanned : set_nested_resource.SetNestedModel :=
  ⟨TfString.value "a", TfString.null, TfString.unknown, TfString.unknown, TfBool.value false⟩

/-! ## Handlers of resource_computed.go, resource_set_nested.go and the regex resources -/

/-- Method `(*ResourceComputed).Create`. `reqPlanGet` is the outcome of
`req.Plan.Get(ctx, &data)`, `stateSet` is `resp.State.Set(ctx, &data)`. -/
def ResourceComputed.Create {σ : Type} (reqPlanGet : ResourceComputedModel × Diagnostics)
    (stateSet : ResourceComputedModel → σ × Diagnostics) (resp : Response σ) : Response σ :=
  let data := reqPlanGet.1
  let resp := { resp with Diagnostics := Diagnostics.Append resp.Diagnostics reqPlanGet.2 }
  if HasError resp.Diagnostics then
    resp
  else
    let data := { data with Id := TfString.value "id-f91f202e-abe3-40b6-9d7d-f35fb3bf0471" }
    let r := ResourceComputedModel.fnConvert data
    let data := r.1
    let diags := r.2
    let resp := { resp with Diagnostics := Diagnostics.Append resp.Diagnostics diags }
    if HasError resp.Diagnostics then
      resp
    else
      let w := stateSet data
      { State := w.1, Diagnostics := Diagnostics.Append resp.Diagnostics w.2 }

/-- Method `(*ResourceComputed).Update`. `reqPlanGet` is the outcome of
`req.Plan.Get(ctx, &data)`, `stateSet` is `resp.State.Set(ctx, &data)`. -/
def ResourceComputed.Update {σ : Type} (reqPlanGet : ResourceComputedModel × Diagnostics)
    (stateSet : ResourceComputedModel → σ × Diagnostics) (resp : Response σ) : Response σ :=
  let data := reqPlanGet.1
  let resp := { resp with Diagnostics := Diagnostics.Append resp.Diagnostics reqPlanGet.2 }
  if HasError resp.Diagnostics then
    resp
  else
    let r := ResourceComputedModel.fnConvert data
    let data := r.1
    let diags := r.2
    let resp := { resp with Diagnostics := Diagnostics.Append resp.Diagnostics diags }
    if HasError resp.Diagnostics then
      resp
    else
      let w := stateSet data
      { State := w.1, Diagnostics := Diagnostics.Append resp.Diagnostics w.2 }

/-- Method `(*ResourceSetNested).Create`. `reqPlanGet` is the outcome of
`req.Plan.Get(ctx, &data)`, `stateSet` is `resp.State.Set(ctx, &data)`. -/
def ResourceSetNested.Create {σ : Type} (reqPlanGet : ResourceSetNestedModel × Diagnostics)
    (stateSet : ResourceSetNestedModel → σ × Diagnostics) (resp : Response σ) : Response σ :=
  let data := reqPlanGet.1
  let resp := { resp with Diagnostics := Diagnostics.Append resp.Diagnostics reqPlanGet.2 }
  if HasError resp.Diagnostics then
    resp
  else
    let data := { data with Id := TfString.value "example-id" }
    let r := ResourceSetNestedModel.fnConvert data
    let data := r.1
    let diags := r.2
    let resp := { resp with Diagnostics := Diagnostics.Append resp.Diagnostics diags }
    if HasError resp.Diagnostics then
      resp
    else
      let w := stateSet data
      { State := w.1, Diagnostics := Diagnostics.Append resp.Diagnostics w.2 }

/-- Struct `RegexResourceModel` of `regex_resource.go`. -/
structure RegexResourceModel where
  Id : TfString
  Name : TfString
  Alias : TfString
  deriving DecidableEq, Repr

/-- Struct `ResourceRegexModel` of `resource_regex.go`. -/
structure ResourceRegexModel where
  Id : TfString
  Name : TfString
  Alias : TfString
  deriving DecidableEq, Repr

/-- Method `(*RegexResource).Create` of `regex_resource.go`. -/
def RegexResource.Create {σ : Type} (reqPlanGet : RegexResourceModel × Diagnostics)
    (stateSet : RegexResourceModel → σ × Diagnostics) (resp : Response σ) : Response σ :=
  let data := reqPlanGet.1
  let resp := { resp with Diagnostics := Diagnostics.Append resp.Diagnostics reqPlanGet.2 }
  if HasError resp.Diagnostics then
    resp
  else
    let data := { data with Id := TfString.value "example-id" }
    let w := stateSet data
    { State := w.1, Diagnostics := Diagnostics.Append resp.Diagnostics w.2 }

/-- Method `(*ResourceRegex).Create` of `resource_regex.go`. -/
def ResourceRegex.Create {σ : Type} (reqPlanGet : ResourceRegexModel × Diagnostics)
    (stateSet : ResourceRegexModel → σ × Diagnostics) (resp : Response σ) : Response σ :=
  let data := reqPlanGet.1
  let resp := { resp with Diagnostics := Diagnostics.Append resp.Diagnostics reqPlanGet.2 }
  if HasError resp.Diagnostics then
    resp
  else
    let data := { data with Id := TfString.value "example-id" }
    let w := stateSet data
    { State := w.1, Diagnostics := Diagnostics.Append resp.Diagnostics w.2 }

/-- A plan of the computed resource whose `list_optional` holds a null element behind a
known one, so that decoding it into a Go `[]string` fails inside `fnConvert`. -/
def sampleComputedBad : ResourceComputedModel :=
  ⟨TfString.unknown, TfString.null, TfString.null, TfString.null,
    TfColl.elems [TfString.value "a", TfString.null]⟩

/-- An error diagnostic as a failed decoding of the plan or state would report it. -/
def sampleDecodeError : Diagnostic :=
  ⟨Severity.error, "Value Conversion Error", "mismatch between struct and object"⟩

/-! ## Schema of resource_computed.go and the reconciliation rules of the specification -/

/-- Plan modifiers of the framework that the schemas attach to attributes. -/
inductive PlanModifier where
  | UseStateForUnknown
  | RequiresReplace
  | RequiresReplaceIfConfigured
  deriving DecidableEq, Repr

/-- Shape of an attribute: `schema.StringAttribute` is a scalar, `schema.ListAttribute` a
list, `schema.SetNestedAttribute` a set. -/
inductive AttributeKind where
  | Scalar
  | Set
  | List
  deriving DecidableEq, Repr

/-- One entry of the `Attributes` map of a `schema.Schema`. -/
structure Attribute where
  Name : String
  Kind : AttributeKind
  Required : Bool
  Optional : Bool
  Computed : Bool
  PlanModifiers : List PlanModifier
  deriving DecidableEq, Repr

/-- The `Attributes` of `(*ResourceComputed).Schema`, in source order. -/
def ResourceComputed.Schema : List Attribute :=
  [ ⟨"id", AttributeKind.Scalar, false, false, true, [PlanModifier.UseStateForUnknown]⟩,
    ⟨"replace", AttributeKind.Scalar, false, true, false, [PlanModifier.RequiresReplace]⟩,
    ⟨"replace_if_configured", AttributeKind.Scalar, false, true, false,
      [PlanModifier.RequiresReplaceIfConfigured]⟩,
    ⟨"use_state_for_unknown", AttributeKind.Scalar, false, true, false,
      [PlanModifier.UseStateForUnknown]⟩,
    ⟨"list_optional", AttributeKind.List, false, true, true,
      [PlanModifier.RequiresReplaceIfConfigured]⟩ ]

/-- Modelled from the spec: the `ModifierKind` of section 3, one per attribute. The code
that gives the plan modifiers their meaning belongs to the plugin framework and is
missing from the sources. -/
inductive ModifierKind where
  | None
  | PreservePriorIfUnknown
  | ForceReplace
  | ForceReplaceIfConfigured
  deriving DecidableEq, Repr

/-- Modelled from the spec: the correspondence between the framework plan modifiers named
in the schema and the modifier kinds of section 3 (`UseStateForUnknown` preserves the
prior value, `RequiresReplace` forces replacement, `RequiresReplaceIfConfigured` forces
it when configured); an attribute without plan modifier has kind `None`. The framework
code of the modifiers is missing from the sources. -/
def ModifierKind.ofPlanModifiers : List PlanModifier → ModifierKind
  | [] => ModifierKind.None
  | PlanModifier.UseStateForUnknown :: _ => ModifierKind.PreservePriorIfUnknown
  | PlanModifier.RequiresReplace :: _ => ModifierKind.ForceReplace
  | PlanModifier.RequiresReplaceIfConfigured :: _ => ModifierKind.ForceReplaceIfConfigured

/-- Modelled from the spec: `AttributeModifier.resolve` of section 4.1 for string-valued
scalars, whose framework implementation is missing from the sources. `prior = none` is
the "no prior state" sentinel, for which nothing is carried forward and nothing forces a
replacement. -/
def AttributeModifier.resolve (modifier : ModifierKind) (prior : Option TfString)
    (configured : TfString) : TfString × Bool :=
  match prior with
  | none => (configured, false)
  | some p =>
    match modifier with
    | ModifierKind.None => (configured, false)
    | ModifierKind.PreservePriorIfUnknown =>
      if configured.IsUnknown then (p, false) else (configured, false)
    | ModifierKind.ForceReplace =>
      (configured, !p.IsNull && !p.IsUnknown && decide (p ≠ configured))
    | ModifierKind.ForceReplaceIfConfigured =>
      (configured, !p.IsNull && !p.IsUnknown && decide (p ≠ configured) && !configured.IsNull)

/-- Modelled from the spec: the `Action` of section 3. -/
inductive Action where
  | NoOp
  | UpdateInPlace
  | Replace
  deriving DecidableEq, Repr

/-- Modelled from the spec: `ReconciliationResult` of section 3, restricted to the scalar
attributes. -/
structure ReconciliationResult where
  newState : List (String × TfString)
  action : Action
  deriving DecidableEq, Repr

/-- Modelled from the spec: the steps ResolvingAttributes and ClassifyingAction of
`ResourceReconciler.reconcile` (section 4.4) over the scalar attributes of a schema, the
host and framework code that performs them being missing from the sources. Every scalar
attribute is resolved by `AttributeModifier.resolve`, the forcesReplace signals are
OR-ed, and the action is: with no prior state UpdateInPlace (the creation), else NoOp
when no attribute changed, else Replace when the flag is set, else UpdateInPlace. -/
def ResourceReconciler.reconcile (schema : List Attribute) (prior : Option (String → TfString))
    (config : String → TfString) : ReconciliationResult :=
  let scalars := schema.filter (fun a => a.Kind == AttributeKind.Scalar)
  let resolved := scalars.map (fun a =>
    (a.Name, AttributeModifier.resolve (ModifierKind.ofPlanModifiers a.PlanModifiers)
      (prior.map (fun st => st a.Name)) (config a.Name)))
  let newState := resolved.map (fun r => (r.1, r.2.1))
  let replaceFlag := resolved.any (fun r => r.2.2)
  match prior with
  | none => ⟨newState, Action.UpdateInPlace⟩
  | some st =>
    let changed := resolved.any (fun r => decide (r.2.1 ≠ st r.1))
    if !changed then ⟨newState, Action.NoOp⟩
    else if replaceFlag then ⟨newState, Action.Replace⟩
    else ⟨newState, Action.UpdateInPlace⟩

/-- A state or configuration of the computed resource given by its four scalar
attributes; every other name is null. -/
def scalarsOf (id replace replaceIfConfigured useStateForUnknown : TfString) :
    String → TfString :=
  fun name =>
    if name = "id" then id
    else if name = "replace" then replace
    else if name = "replace_if_configured" then replaceIfConfigured
    else if name = "use_state_for_unknown" then useStateForUnknown
    else TfString.null

/-! ## Validators of the regex resources and of modifier_resource.go -/

/-- One item of a bracketed character class of a Go regular expression: a single
character or a range `lo-hi`. -/
inductive ClassItem where
  | char (c : Char)
  | range (lo hi : Char)
  deriving DecidableEq, Repr

/-- Membership of a character in a class item, by code point. -/
def ClassItem.contains : ClassItem → Char → Bool
  | ClassItem.char c, x => decide (x.toNat = c.toNat)
  | ClassItem.range lo hi, x => decide (lo.toNat ≤ x.toNat) && decide (x.toNat ≤ hi.toNat)

/-- A bracketed character class `[...]` or, when `negated`, `[^...]`. A negated class
of Go matches every character outside the items, line feed included. -/
structure CharClass where
  negated : Bool
  items : List ClassItem
  deriving DecidableEq, Repr

/-- Membership of a character in a character class. -/
def CharClass.contains (k : CharClass) (x : Char) : Bool :=
  if k.negated then !(k.items.any (fun i => i.contains x))
  else k.items.any (fun i => i.contains x)

/-- Syntax of the regular expressions used by the validators. `none` matches nothing and
only arises while matching. -/
inductive Regex where
  | none
  | eps
  | cls (k : CharClass)
  | alt (r s : Regex)
  | cat (r s : Regex)
  | star (r : Regex)
  deriving DecidableEq, Repr

/-- The quantifier `r?`. -/
def Regex.opt (r : Regex) : Regex :=
  Regex.alt r Regex.eps

/-- At most `n` repetitions of `r`, the quantifier `r{0,n}`. -/
def Regex.upTo (r : Regex) : Nat → Regex
  | 0 => Regex.eps
  | n + 1 => Regex.opt (Regex.cat r (Regex.upTo r n))

/-- Exactly `n` repetitions of `r` followed by `rest`. -/
def Regex.times (r : Regex) : Nat → Regex → Regex
  | 0, rest => rest
  | n + 1, rest => Regex.cat r (Regex.times r n rest)

/-- The quantifier `r{lo,hi}`: `lo` repetitions followed by at most `hi - lo` more. -/
def Regex.rep (r : Regex) (lo hi : Nat) : Regex :=
  Regex.times r lo (Regex.upTo r (hi - lo))

/-- Whether a regular expression matches the empty text. -/
def Regex.nullable : Regex → Bool
  | Regex.none => false
  | Regex.eps => true
  | Regex.cls _ => false
  | Regex.alt r s => r.nullable || s.nullable
  | Regex.cat r s => r.nullable && s.nullable
  | Regex.star _ => true

/-- Derivative of a regular expression by a character: what remains to be matched after
the character `x` was read. -/
def Regex.deriv : Regex → Char → Regex
  | Regex.none, _ => Regex.none
  | Regex.eps, _ => Regex.none
  | Regex.cls k, x => if k.contains x then Regex.eps else Regex.none
  | Regex.alt r s, x => Regex.alt (r.deriv x) (s.deriv x)
  | Regex.cat r s, x =>
    if r.nullable then Regex.alt (Regex.cat (r.deriv x) s) (s.deriv x)
    else Regex.cat (r.deriv x) s
  | Regex.star r, x => Regex.cat (r.deriv x) (Regex.star r)

/-- Whether the whole text is matched by the regular expression. -/
def Regex.rmatch : Regex → List Char → Bool
  | r, [] => r.nullable
  | r, x :: xs => (r.deriv x).rmatch xs

/-- The texts matched by a regular expression, as the usual language semantics; the
matcher `Regex.rmatch` is proved to decide it. -/
inductive Regex.Matches : Regex → List Char → Prop where
  | eps : Regex.Matches Regex.eps []
  | cls (k : CharClass) (x : Char) (h : k.contains x = true) :
      Regex.Matches (Regex.cls k) [x]
  | altLeft (r s : Regex) (w : List Char) (h : Regex.Matches r w) :
      Regex.Matches (Regex.alt r s) w
  | altRight (r s : Regex) (w : List Char) (h : Regex.Matches s w) :
      Regex.Matches (Regex.alt r s) w
  | cat (r s : Regex) (u v : List Char) (hu : Regex.Matches r u) (hv : Regex.Matches s v) :
      Regex.Matches (Regex.cat r s) (u ++ v)
  | starNil (r : Regex) : Regex.Matches (Regex.star r) []
  | starCons (r : Regex) (u v : List Char) (hu : Regex.Matches r u)
      (hv : Regex.Matches (Regex.star r) v) : Regex.Matches (Regex.star r) (u ++ v)

/-- Go `re.MatchString(value)` for a pattern `^body$` compiled without flags, given by its
`body`: the whole value, read as a sequence of Unicode characters, is matched. -/
def MatchString (body : Regex) (value : String) : Bool :=
  body.rmatch value.toList

/-- Validator `stringvalidator.LengthAtLeast(min)` on a known value: the length of a Go
string is its number of UTF-8 bytes. The result `true` means no diagnostic. -/
def LengthAtLeast (min : Nat) (value : String) : Bool :=
  decide (min ≤ value.utf8ByteSize)

/-- Validator `stringvalidator.LengthAtMost(max)` on a known value. -/
def LengthAtMost (max : Nat) (value : String) : Bool :=
  decide (value.utf8ByteSize ≤ max)

/-- Validator `stringvalidator.RegexMatches(re, message)` on a known value, for an anchored
pattern given by its body. -/
def RegexMatches (body : Regex) (value : String) : Bool :=
  MatchString body value

/-- The class `[a-zA-Z]`. -/
def classLetter : CharClass :=
  ⟨false, [ClassItem.range 'a' 'z', ClassItem.range 'A' 'Z']⟩

/-- The class `[a-zA-Z0-9-]`. -/
def classLetterDigitHyphen : CharClass :=
  ⟨false, [ClassItem.range 'a' 'z', ClassItem.range 'A' 'Z', ClassItem.range '0' '9',
    ClassItem.char '-']⟩

/-- The class `[a-zA-Z0-9]`. -/
def classLetterDigit : CharClass :=
  ⟨false, [ClassItem.range 'a' 'z', ClassItem.range 'A' 'Z', ClassItem.range '0' '9']⟩

/-- The class written `[^.\u3000-\u303F\\/:*?\"<>|]` in the Go string literal: everything
but the dot, the characters U+3000 to U+303F, and the characters / : * ? " < > |
(code point 34 is the double quote). -/
def classEdge : CharClass :=
  ⟨true, [ClassItem.char '.', ClassItem.range (Char.ofNat 0x3000) (Char.ofNat 0x303F),
    ClassItem.char '/', ClassItem.char ':', ClassItem.char '*', ClassItem.char '?',
    ClassItem.char (Char.ofNat 34), ClassItem.char '<', ClassItem.char '>',
    ClassItem.char '|']⟩

/-- The class written `[^\\/:*?\"<>|]` in the Go string literal: everything but the
characters / : * ? " < > |. -/
def classMiddle : CharClass :=
  ⟨true, [ClassItem.char '/', ClassItem.char ':', ClassItem.char '*', ClassItem.char '?',
    ClassItem.char (Char.ofNat 34), ClassItem.char '<', ClassItem.char '>',
    ClassItem.char '|']⟩

/-- Body of the `name` pattern `^[a-zA-Z][a-zA-Z0-9-]*[a-zA-Z0-9]$` of the regex
resources. -/
def nameRegex : Regex :=
  Regex.cat (Regex.cls classLetter)
    (Regex.cat (Regex.star (Regex.cls classLetterDigitHyphen)) (Regex.cls classLetterDigit))

/-- Body of the `alias` pattern of the regex resources: an edge character, zero to 32
middle characters, and an optional edge character. -/
def aliasRegex : Regex :=
  Regex.cat (Regex.cls classEdge)
    (Regex.cat (Regex.rep (Regex.cls classMiddle) 0 32) (Regex.opt (Regex.cls classEdge)))

/-- Body of the `name` pattern of `modifier_resource.go`: an edge character, one to 32
middle characters, and an optional edge character. -/
def modifierNameRegex : Regex :=
  Regex.cat (Regex.cls classEdge)
    (Regex.cat (Regex.rep (Regex.cls classMiddle) 1 32) (Regex.opt (Regex.cls classEdge)))

/-- The validators of `name` of the regex resources, in source order; the value is
accepted when none reports a diagnostic. -/
def RegexResource.validateName (value : String) : Bool :=
  LengthAtMost 25 value && RegexMatches nameRegex value

/-- The validators of `alias` of the regex resources, in source order. -/
def RegexResource.validateAlias (value : String) : Bool :=
  LengthAtLeast 0 value && LengthAtMost 32 value && RegexMatches aliasRegex value

/-- The validators of `name` of `modifier_resource.go`, in source order. -/
def ModifierResource.validateName (value : String) : Bool :=
  LengthAtLeast 1 value && LengthAtMost 32 value && RegexMatches modifierNameRegex value

/-- The rule for `name` in the words of the claim and of the validator message: the value
is non-empty, consists only of ASCII letters, digits and hyphens, begins with a letter
and does not end with a hyphen. Stated independently of the pattern, for comparison
with `RegexMatches nameRegex`. -/
def nameRuleOfMessage (value : String) : Bool :=
  match value.toList with
  | [] => false
  | x :: xs =>
    (x :: xs).all (fun c => classLetterDigitHyphen.contains c)
      && classLetter.contains x
      && decide ((x :: xs).getLast? ≠ some '-')

/-- The characters that the message of the `alias` and modifier `name` validators forbids
anywhere in the value: / : * ? " < > | and the full-width range U+3000 to U+303F. -/
def forbiddenOfMessage (c : Char) : Bool :=
  [ClassItem.range (Char.ofNat 0x3000) (Char.ofNat 0x303F), ClassItem.char '/',
    ClassItem.char ':', ClassItem.char '*', ClassItem.char '?', ClassItem.char (Char.ofNat 34),
    ClassItem.char '<', ClassItem.char '>', ClassItem.char '|'].any (fun i => i.contains c)

/-! ## echo/main.go -/

/-- Go `http.Header`, a map from header key to the list of its values, as an association
list with one entry per key. Keys of a request parsed by the server are in canonical
form, so that the canonicalisation done by `Set`, `Del` and `Get` leaves them as they
are. -/
abbrev Header := List (String × List String)

/-- The map lookup `h[key]`: the values stored for `key`, the nil slice when absent. -/
def Header.Values (h : Header) (key : String) : List String :=
  match h.lookup key with
  | some values => values
  | none => []

/-- Method `Del` of `http.Header`. -/
def Header.Del (h : Header) (key : String) : Header :=
  h.filter (fun e => e.1 != key)

/-- Method `Set` of `http.Header`: the entry of `key` becomes the single value. -/
def Header.Set (h : Header) (key value : String) : Header :=
  (key, [value]) :: Header.Del h key

/-- Method `Get` of `http.Header`: the first value of `key`, or the empty string. -/
def Header.Get (h : Header) (key : String) : String :=
  match Header.Values h key with
  | [] => ""
  | value :: _ => value

/-- The request as the `/echo` handler sees it; `Body` is the outcome of
`io.ReadAll(c.Request.Body)`. -/
structure EchoRequest where
  Method : String
  URL : String
  Header : Header
  Body : Except String (List UInt8)

/-- The response of the server to the request: the status and header the handler stored
in the response writer, and the body that `net/http` sends to the client. -/
structure EchoResponse where
  Status : Nat
  Header : Header
  Body : List UInt8
  deriving DecidableEq

/-- The UTF-8 bytes of a Go string. -/
def utf8Bytes (s : String) : List UInt8 :=
  s.toList.flatMap String.utf8EncodeChar

/-- Method `c.Header(key, value)` of gin on the header of the response writer: an empty
value deletes the key, any other value replaces the values of the key. -/
def ginHeader (w : Header) (key value : String) : Header :=
  if value = "" then Header.Del w key else Header.Set w key value

/-- Function `filterFlags` of gin, used by `c.ContentType()`: the content up to the first
blank or semicolon. -/
def filterFlags (content : String) : String :=
  String.mk (content.toList.takeWhile (fun c => !(c == ' ' || c == ';')))

/-- Function `writeContentType` of gin: the content type is stored unless the response
already has one. -/
def writeContentType (w : Header) (value : List String) : Header :=
  if (Header.Values w "Content-Type").length = 0 then
    ("Content-Type", value) :: Header.Del w "Content-Type"
  else w

/-- Method `Write` of the `net/http` response writer, as far as the body sent to the
client goes: the bytes written for a request of method HEAD are discarded. -/
def responseWrite (method : String) (data : List UInt8) : List UInt8 :=
  if method = "HEAD" then [] else data

/-- Method `Render` of gin's `render.Data` on the response header: the content type is
stored unless there is one, and a non-empty body sets `Content-Length` to its length. -/
def renderDataHeader (w : Header) (contentType : String) (data : List UInt8) : Header :=
  let w := writeContentType w [contentType]
  if data.length > 0 then Header.Set w "Content-Length" (Nat.repr data.length) else w

/-- Inner loop `for _, value := range values` of the `/echo` handler. -/
def echoValuesLoop (key : String) : List String → Header → Header
  | [], w => w
  | value :: rest, w => echoValuesLoop key rest (ginHeader w key value)

/-- Outer loop `for key, values := range c.Request.Header` of the `/echo` handler, over the
entries of the request header in the order of the association list. -/
def echoHeaderLoop : List (String × List String) → Header → Header
  | [], w => w
  | (key, values) :: rest, w => echoHeaderLoop rest (echoValuesLoop key values w)

/-- The handler registered by `r.Any("/echo", ...)` in `main`, which routes every method,
HEAD included, followed by what the server sends. `c.String` and `c.Data` store the
status and the header and write the body through the response writer. The call of
`log.Printf` leaves no trace in the response and is left out. -/
def echoHandler (req : EchoRequest) : EchoResponse :=
  match req.Body with
  | Except.error _ =>
    { Status := 500,
      Header := writeContentType [] ["text/plain; charset=utf-8"],
      Body := responseWrite req.Method (utf8Bytes "Failed to read request body") }
  | Except.ok body =>
    let w := echoHeaderLoop req.Header []
    let contentType := filterFlags (Header.Get req.Header "Content-Type")
    { Status := 200,
      Header := renderDataHeader w contentType body,
      Body := responseWrite req.Method body }

/-- The request `HEAD /echo` with the two bytes of "hi" as body. -/
def sampleHeadRequest : EchoRequest :=
  { Method := "HEAD", URL := "/echo", Header := [("Content-Length", ["2"])],
    Body := Except.ok [104, 105] }

/-- The request `POST /echo` with the two bytes of "hi" as body. -/
def samplePostRequest : EchoRequest :=
  { Method := "POST", URL := "/echo", Header := [("Content-Length", ["2"])],
    Body := Except.ok [104, 105] }

/-- A request `POST /echo` whose body cannot be read. -/
def sampleFailedRequest : EchoRequest :=
  { Method := "POST", URL := "/echo", Header := [("Content-Length", ["2"])],
    Body := Except.error "unexpected EOF" }

/-- A request with one key of two values, one key with the empty value and one ordinary
key. -/
def sampleEchoRequest : EchoRequest :=
  { Method := "GET", URL := "/echo",
    Header := [("X-A", ["1", "2"]), ("X-E", [""]), ("X-B", ["b"])],
    Body := Except.ok [] }

/-! ## Configure of resource_set_nested.go and go-hadoop-yarn/yarn.go -/

/-- A Go `*http.Client`: the nil pointer or a pointer to the client numbered `a`. -/
abbrev HttpClientPtr := Option Nat

/-- The dynamic value `req.ProviderData` of type `any`: the nil interface, a
`*http.Client`, or a value of another type, given by the name `%T` prints for it. -/
inductive ProviderData where
  | nil
  | httpClient (client : HttpClientPtr)
  | other (goType : String)
  deriving DecidableEq, Repr

/-- Struct `ResourceSetNested` of `resource_set_nested.go`. -/
structure ResourceSetNested where
  client : HttpClientPtr
  deriving DecidableEq, Repr

/-- The error that `Configure` reports for provider data of the Go type `goType`. -/
def unexpectedConfigureType (goType : String) : Diagnostic :=
  ⟨Severity.error, "Unexpected Resource Configure Type",
    "Expected *http.Client, got: " ++ goType
      ++ ". Please report this issue to the provider developers."⟩

/-- Method `(*ResourceSetNested).Configure`: the receiver and `resp.Diagnostics` after the
call, for the provider data of the request and the diagnostics on entry. -/
def ResourceSetNested.Configure (r : ResourceSetNested) (reqProviderData : ProviderData)
    (respDiagnostics : Diagnostics) : ResourceSetNested × Diagnostics :=
  match reqProviderData with
  | ProviderData.nil => (r, respDiagnostics)
  | ProviderData.other goType =>
    (r, Diagnostics.AddError respDiagnostics "Unexpected Resource Configure Type"
      ("Expected *http.Client, got: " ++ goType
        ++ ". Please report this issue to the provider developers."))
  | ProviderData.httpClient client => ({ r with client := client }, respDiagnostics)

/-- Struct `Yarn` of `go-hadoop-yarn/yarn.go`. -/
structure Yarn where
  Name : String
  deriving DecidableEq, Repr

/-- Function `NewYarn`: the struct that the returned pointer points to. -/
def NewYarn (name : String) : Yarn :=
  { Name := name }

/-- The number written by a text of decimal digits, read from the left starting from the
number `acc`; used to read back what `Sprintf` prints for an index. -/
def decimalValue (acc : Nat) (cs : List Char) : Nat :=
  cs.foldl (fun a c => 10 * a + (c.toNat - 48)) acc

/-! ## Lemmas on the loops -/

@[simp]
theorem Diagnostics.Append_nil (a : Diagnostics) : Diagnostics.Append a [] = a := rfl

theorem Diagnostics.mem_Append (a b : Diagnostics) (d : Diagnostic) :
    d ∈ Diagnostics.Append a b ↔ d ∈ a ∨ d ∈ b := by
  induction b generalizing a with
  | nil => simp
  | cons e rest ih =>
    rw [Diagnostics.Append, ih]
    by_cases he : a.contains e = true
    · rw [if_pos he]
      have hea : e ∈ a := by simpa using he
      constructor
      · rintro (h | h)
        · exact Or.inl h
        · exact Or.inr (List.mem_cons_of_mem e h)
      · rintro (h | h)
        · exact Or.inl h
        · rcases List.mem_cons.mp h with h1 | h1
          · rw [h1]
            exact Or.inl hea
          · exact Or.inr h1
    · rw [if_neg he]
      simp only [List.mem_append, List.mem_singleton, List.mem_cons]
      tauto

theorem HasError_iff (ds : Diagnostics) :
    HasError ds = true ↔ ∃ d ∈ ds, d.Severity = Severity.error := by
  simp [HasError]

theorem HasError_Append_eq (a b : Diagnostics) :
    HasError (Diagnostics.Append a b) = (HasError a || HasError b) := by
  rw [Bool.eq_iff_iff, Bool.or_eq_true, HasError_iff, HasError_iff, HasError_iff]
  constructor
  · rintro ⟨d, hd, he⟩
    rcases (Diagnostics.mem_Append a b d).mp hd with h | h
    · exact Or.inl ⟨d, h, he⟩
    · exact Or.inr ⟨d, h, he⟩
  · rintro (⟨d, hd, he⟩ | ⟨d, hd, he⟩)
    · exact ⟨d, (Diagnostics.mem_Append a b d).mpr (Or.inl hd), he⟩
    · exact ⟨d, (Diagnostics.mem_Append a b d).mpr (Or.inr hd), he⟩


theorem ResourceSetNestedModel.rangeLoop_eq_mapIdx (i : Nat) (xs processed : List SetNestedModel) :
    ResourceSetNestedModel.rangeLoop i xs processed
      = processed ++ xs.mapIdx (fun j x => ResourceSetNestedModel.loopBody (i + j) x) := by
  induction xs generalizing i processed with
  | nil => simp [ResourceSetNestedModel.rangeLoop]
  | cons x rest ih =>
    rw [ResourceSetNestedModel.rangeLoop, ih, List.mapIdx_cons]
    simp [Nat.add_assoc, Nat.add_comm 1]

theorem ResourceSetNestedModel.rangeLoop_zero_mapIdx (xs : List SetNestedModel) :
    ResourceSetNestedModel.rangeLoop 0 xs [] = xs.mapIdx ResourceSetNestedModel.loopBody := by
  rw [ResourceSetNestedModel.rangeLoop_eq_mapIdx]
  simp

theorem ResourceSetNestedModel.fnConvert_known_set (id : TfString) (xs : List SetNestedModel) :
    ResourceSetNestedModel.fnConvert ⟨id, TfColl.elems xs⟩
      = (⟨id, TfColl.elems (xs.mapIdx ResourceSetNestedModel.loopBody)⟩, []) := by
  cases xs with
  | nil => simp [ResourceSetNestedModel.fnConvert, TfColl.ElementsAs, ResourceSetNestedModel.rangeLoop]
  | cons x rest =>
    simp only [ResourceSetNestedModel.fnConvert, TfColl.ElementsAs,
      ResourceSetNestedModel.rangeLoop_zero_mapIdx, ValueFrom]
    simp [HasError]

theorem ResourceSetNestedModel.converted_eq (id : TfString) (xs : List SetNestedModel) :
    ResourceSetNestedModel.converted id xs = xs.mapIdx ResourceSetNestedModel.loopBody := by
  simp [ResourceSetNestedModel.converted, ResourceSetNestedModel.fnConvert_known_set,
    TfColl.ElementsAs]

theorem ResourceSetNestedModel.converted_getElem? (id : TfString) (xs : List SetNestedModel)
    (i : Nat) :
    (ResourceSetNestedModel.converted id xs)[i]?
      = (xs[i]?).map (ResourceSetNestedModel.loopBody i) := by
  rw [ResourceSetNestedModel.converted_eq, List.getElem?_mapIdx]

theorem insertAt_getElem?_lt {α : Type} (k : Nat) (e : α) (xs : List α) (j : Nat)
    (hk : k ≤ xs.length) (hj : j < k) : (insertAt k e xs)[j]? = xs[j]? := by
  unfold insertAt
  rw [List.getElem?_append_left (by simp; omega), List.getElem?_take_of_lt hj]

theorem insertAt_getElem?_ge {α : Type} (k : Nat) (e : α) (xs : List α) (j : Nat)
    (hk : k ≤ xs.length) (hj : k ≤ j) : (insertAt k e xs)[j + 1]? = xs[j]? := by
  unfold insertAt
  rw [List.getElem?_append_right (by simp; omega)]
  have h1 : (List.take k xs).length = k := by simp; omega
  have h2 : j + 1 - k = (j - k) + 1 := by omega
  rw [h1, h2, List.getElem?_cons_succ, List.getElem?_drop]
  congr 1
  omega

theorem ResourceSetNestedModel.loopBody_Port (i : Nat) (x : SetNestedModel) :
    (ResourceSetNestedModel.loopBody i x).Port = TfString.value (Sprintf "port_id_" i) := by
  unfold ResourceSetNestedModel.loopBody
  dsimp only
  split <;> rfl

theorem ResourceSetNestedModel.loopBody_Mac (i : Nat) (x : SetNestedModel) :
    (ResourceSetNestedModel.loopBody i x).Mac = TfString.value (Sprintf "mac_address_" i) := by
  unfold ResourceSetNestedModel.loopBody
  dsimp only
  split <;> rfl

theorem ResourceSetNestedModel.loopBody_Uuid (i : Nat) (x : SetNestedModel) :
    (ResourceSetNestedModel.loopBody i x).Uuid = x.Uuid := by
  unfold ResourceSetNestedModel.loopBody
  dsimp only
  split <;> rfl

theorem ResourceSetNestedModel.loopBody_EnableGateway (i : Nat) (x : SetNestedModel) :
    (ResourceSetNestedModel.loopBody i x).EnableGateway = x.EnableGateway := by
  unfold ResourceSetNestedModel.loopBody
  dsimp only
  split <;> rfl

theorem ResourceSetNestedModel.loopBody_unset (i : Nat) (x : SetNestedModel)
    (h : (x.FixedIp.IsNull || x.FixedIp.IsUnknown) = true) :
    (ResourceSetNestedModel.loopBody i x).FixedIp = TfString.value (Sprintf "fixed_ip_" i)
      ∧ (ResourceSetNestedModel.loopBody i x).FixedIpV4
          = TfString.value (Sprintf "fixed_ip_v4_" i) := by
  unfold ResourceSetNestedModel.loopBody
  dsimp only
  rw [if_pos h]
  exact ⟨rfl, rfl⟩

theorem ResourceSetNestedModel.loopBody_set (i : Nat) (x : SetNestedModel)
    (h : (x.FixedIp.IsNull || x.FixedIp.IsUnknown) = false) :
    (ResourceSetNestedModel.loopBody i x).FixedIp = x.FixedIp
      ∧ (ResourceSetNestedModel.loopBody i x).FixedIpV4 = x.FixedIp := by
  unfold ResourceSetNestedModel.loopBody
  dsimp only
  rw [if_neg (by simp [h])]
  exact ⟨rfl, rfl⟩

theorem ResourceSetNestedModel.loopBody_FixedIp_known (i : Nat) (x : SetNestedModel) :
    ((ResourceSetNestedModel.loopBody i x).FixedIp.IsNull
      || (ResourceSetNestedModel.loopBody i x).FixedIp.IsUnknown) = false := by
  cases h : (x.FixedIp.IsNull || x.FixedIp.IsUnknown)
  · rw [(ResourceSetNestedModel.loopBody_set i x h).1]
    exact h
  · rw [(ResourceSetNestedModel.loopBody_unset i x h).1]
    rfl

/-- Running the loop body again at the same index only rewrites `fixed_ip_v4`, to the
value `fixed_ip` already has. -/
theorem ResourceSetNestedModel.loopBody_loopBody (i : Nat) (x : SetNestedModel) :
    ResourceSetNestedModel.loopBody i (ResourceSetNestedModel.loopBody i x)
      = { ResourceSetNestedModel.loopBody i x with
            FixedIpV4 := (ResourceSetNestedModel.loopBody i x).FixedIp } := by
  have hk := ResourceSetNestedModel.loopBody_FixedIp_known i x
  have hp := ResourceSetNestedModel.loopBody_Port i x
  have hm := ResourceSetNestedModel.loopBody_Mac i x
  generalize ResourceSetNestedModel.loopBody i x = y at hk hp hm
  unfold ResourceSetNestedModel.loopBody
  dsimp only
  rw [if_neg (by simp [hk])]
  cases y
  simp only at hp hm
  simp [hp, hm]

/-! ## Claims on `ResourceSetNestedModel.fnConvert` -/

/-- C1 (counterexample): with `xs = [a]` and a new element inserted at position 0, the
element `a` (index 0 of `xs`, index 1 after the insertion) has port "port_id_0" and mac
"mac_address_0" in the output for `xs` but port "port_id_1" and mac "mac_address_1" in
the output for the list with the insertion. -/
theorem C1_identity_stability_fails :
    insertAt 0 sampleB [sampleA] = [sampleB, sampleA]
    ∧ Option.map SetNestedModel.Port (ResourceSetNestedModel.converted TfString.null [sampleA])[0]?
        = some (TfString.value "port_id_0")
    ∧ Option.map SetNestedModel.Port
        (ResourceSetNestedModel.converted TfString.null (insertAt 0 sampleB [sampleA]))[1]?
        = some (TfString.value "port_id_1")
    ∧ Option.map SetNestedModel.Uuid
        (ResourceSetNestedModel.converted TfString.null (insertAt 0 sampleB [sampleA]))[1]?
        = some (TfString.value "a")
    ∧ ¬ (Option.map SetNestedModel.Port
          (ResourceSetNestedModel.converted TfString.null (insertAt 0 sampleB [sampleA]))[1]?
        = Option.map SetNestedModel.Port
          (ResourceSetNestedModel.converted TfString.null [sampleA])[0]?)
    ∧ ¬ (Option.map SetNestedModel.Mac
          (ResourceSetNestedModel.converted TfString.null (insertAt 0 sampleB [sampleA]))[1]?
        = Option.map SetNestedModel.Mac
          (ResourceSetNestedModel.converted TfString.null [sampleA])[0]?) := by
  decide

/-- Effect of an insertion on the elements behind it: when `e` is inserted at position `k`
of `xs`, the element at an index `j ≥ k` of `xs` moves to index `j + 1` and there gets
the port and mac generated for index `j + 1`. -/
theorem ResourceSetNestedModel.converted_insertAt_behind (id : TfString)
    (xs : List SetNestedModel) (e : SetNestedModel) (k j : Nat) (hk : k ≤ xs.length)
    (hkj : k ≤ j) (hj : j < xs.length) :
    Option.map SetNestedModel.Uuid (ResourceSetNestedModel.converted id (insertAt k e xs))[j + 1]?
        = Option.map SetNestedModel.Uuid xs[j]?
      ∧ Option.map SetNestedModel.Port
          (ResourceSetNestedModel.converted id (insertAt k e xs))[j + 1]?
        = some (TfString.value (Sprintf "port_id_" (j + 1)))
      ∧ Option.map SetNestedModel.Mac
          (ResourceSetNestedModel.converted id (insertAt k e xs))[j + 1]?
        = some (TfString.value (Sprintf "mac_address_" (j + 1))) := by
  rw [ResourceSetNestedModel.converted_getElem?, insertAt_getElem?_ge k e xs j hk hkj,
    List.getElem?_eq_getElem hj]
  simp [ResourceSetNestedModel.loopBody_Port, ResourceSetNestedModel.loopBody_Mac,
    ResourceSetNestedModel.loopBody_Uuid]

/-- C1 (amended): when `e` is inserted at position `k` of `xs` (`k ≤ len xs`), every element
at an index `j < k`, that is in front of the insertion, has in the output for the longer
list exactly the output element it has for `xs`, hence the same port, mac and
fixed_ip_v4. -/
theorem C1_identity_stability_before_insertion (id : TfString) (xs : List SetNestedModel)
    (e : SetNestedModel) (k j : Nat) (hk : k ≤ xs.length) (hjk : j < k) :
    ∃ y, (ResourceSetNestedModel.converted id xs)[j]? = some y
      ∧ (ResourceSetNestedModel.converted id (insertAt k e xs))[j]? = some y := by
  have hj : j < xs.length := Nat.lt_of_lt_of_le hjk hk
  refine ⟨ResourceSetNestedModel.loopBody j (xs.get ⟨j, hj⟩), ?_, ?_⟩
  · rw [ResourceSetNestedModel.converted_getElem?, List.getElem?_eq_getElem hj]
    rfl
  · rw [ResourceSetNestedModel.converted_getElem?, insertAt_getElem?_lt k e xs j hk hjk,
      List.getElem?_eq_getElem hj]
    rfl

theorem C1_identity_stability_before_insertion_witness :
    2 ≤ [sampleA, sampleB, sampleX].length ∧ 1 < 2
    ∧ ∃ y, (ResourceSetNestedModel.converted TfString.null [sampleA, sampleB, sampleX])[1]?
          = some y
        ∧ (ResourceSetNestedModel.converted TfString.null
            (insertAt 2 sampleX [sampleA, sampleB, sampleX]))[1]? = some y :=
  ⟨by decide, by decide,
    C1_identity_stability_before_insertion TfString.null [sampleA, sampleB, sampleX] sampleX 2 1
      (by decide) (by decide)⟩

/-- C2 (counterexample): on the input of scenario B, element "a" with the known port "p0"
followed by element "b" with an unknown port, the output element "a" has port
"port_id_0", not "p0". -/
theorem C2_known_port_overwritten :
    sampleA.Uuid = TfString.value "a" ∧ sampleA.Port = TfString.value "p0"
    ∧ sampleB.Uuid = TfString.value "b" ∧ sampleB.Port = TfString.unknown
    ∧ Option.map SetNestedModel.Uuid
        (ResourceSetNestedModel.converted TfString.null [sampleA, sampleB])[0]?
        = some (TfString.value "a")
    ∧ Option.map SetNestedModel.Port
        (ResourceSetNestedModel.converted TfString.null [sampleA, sampleB])[0]?
        = some (TfString.value "port_id_0")
    ∧ ¬ (Option.map SetNestedModel.Port
          (ResourceSetNestedModel.converted TfString.null [sampleA, sampleB])[0]?
        = some (TfString.value "p0")) := by
  decide

/-- C2 (amended): for every element sequence, the element at index `i` gets the generated
port "port_id_<i>" in the output whether its port was unknown or already known; a known
port survives only when it already equals "port_id_<i>". -/
theorem C2_port_always_generated (id : TfString) (xs : List SetNestedModel) (i : Nat)
    (x : SetNestedModel) (hx : xs[i]? = some x) :
    ∃ y, (ResourceSetNestedModel.converted id xs)[i]? = some y
      ∧ y.Uuid = x.Uuid
      ∧ y.Port = TfString.value (Sprintf "port_id_" i)
      ∧ (y.Port = x.Port ↔ x.Port = TfString.value (Sprintf "port_id_" i)) := by
  refine ⟨ResourceSetNestedModel.loopBody i x, ?_, ?_, ?_, ?_⟩
  · rw [ResourceSetNestedModel.converted_getElem?, hx]
    rfl
  · exact ResourceSetNestedModel.loopBody_Uuid i x
  · exact ResourceSetNestedModel.loopBody_Port i x
  · rw [ResourceSetNestedModel.loopBody_Port]
    exact eq_comm

theorem C2_port_always_generated_witness :
    [sampleA, sampleB][1]? = some sampleB
    ∧ ∃ y, (ResourceSetNestedModel.converted TfString.null [sampleA, sampleB])[1]? = some y
      ∧ y.Uuid = sampleB.Uuid
      ∧ y.Port = TfString.value (Sprintf "port_id_" 1)
      ∧ (y.Port = sampleB.Port ↔ sampleB.Port = TfString.value (Sprintf "port_id_" 1)) :=
  ⟨by decide, C2_port_always_generated TfString.null [sampleA, sampleB] 1 sampleB (by decide)⟩

theorem ResourceSetNestedModel.fnConvert_null (id : TfString) :
    ResourceSetNestedModel.fnConvert ⟨id, TfColl.null⟩ = (⟨id, TfColl.null⟩, []) := by
  simp [ResourceSetNestedModel.fnConvert, TfColl.ElementsAs, ResourceSetNestedModel.rangeLoop]

theorem ResourceSetNestedModel.fnConvert_unknown (id : TfString) :
    ResourceSetNestedModel.fnConvert ⟨id, TfColl.unknown⟩ = (⟨id, TfColl.unknown⟩, []) := by
  simp [ResourceSetNestedModel.fnConvert, TfColl.ElementsAs, ResourceSetNestedModel.rangeLoop]

/-- C3 (counterexample): for the model with the single element "x", whose fixed_ip is
unknown, the first application gives fixed_ip_v4 = "fixed_ip_v4_0" and the second
application gives fixed_ip_v4 = "fixed_ip_0", so the two results differ. -/
theorem C3_idempotence_fails :
    sampleX.FixedIp = TfString.unknown
    ∧ (ResourceSetNestedModel.fnConvert ⟨TfString.null, TfColl.elems [sampleX]⟩).1.SetNested
        = TfColl.elems [⟨TfString.value "x", TfString.value "fixed_ip_0",
            TfString.value "fixed_ip_v4_0", TfString.value "port_id_0",
            TfString.value "mac_address_0", TfBool.value false⟩]
    ∧ (ResourceSetNestedModel.fnConvert
        (ResourceSetNestedModel.fnConvert ⟨TfString.null, TfColl.elems [sampleX]⟩).1).1.SetNested
        = TfColl.elems [⟨TfString.value "x", TfString.value "fixed_ip_0",
            TfString.value "fixed_ip_0", TfString.value "port_id_0",
            TfString.value "mac_address_0", TfBool.value false⟩]
    ∧ ¬ (ResourceSetNestedModel.fnConvert
          (ResourceSetNestedModel.fnConvert ⟨TfString.null, TfColl.elems [sampleX]⟩).1
        = ResourceSetNestedModel.fnConvert ⟨TfString.null, TfColl.elems [sampleX]⟩) := by
  decide

/-- C3 (amended): applying `fnConvert` to the model produced by `fnConvert m` returns the
same diagnostics and the same id, and every element keeps its uuid, fixed_ip, port, mac
and enable_gateway while its fixed_ip_v4 is set to its fixed_ip; when every element of
`m` has a known fixed_ip the second result equals the first in every field. -/
theorem C3_second_application (m : ResourceSetNestedModel) :
    (ResourceSetNestedModel.fnConvert (ResourceSetNestedModel.fnConvert m).1).2
        = (ResourceSetNestedModel.fnConvert m).2
    ∧ (ResourceSetNestedModel.fnConvert (ResourceSetNestedModel.fnConvert m).1).1.Id
        = (ResourceSetNestedModel.fnConvert m).1.Id
    ∧ (ResourceSetNestedModel.fnConvert
          (ResourceSetNestedModel.fnConvert m).1).1.SetNested.ElementsAs.1
        = (ResourceSetNestedModel.fnConvert m).1.SetNested.ElementsAs.1.map
            (fun y => { y with FixedIpV4 := y.FixedIp })
    ∧ ((∀ x ∈ m.SetNested.ElementsAs.1, (x.FixedIp.IsNull || x.FixedIp.IsUnknown) = false) →
        ResourceSetNestedModel.fnConvert (ResourceSetNestedModel.fnConvert m).1
          = ResourceSetNestedModel.fnConvert m) := by
  obtain ⟨id, set⟩ := m
  cases set with
  | null => simp [ResourceSetNestedModel.fnConvert_null, TfColl.ElementsAs]
  | unknown => simp [ResourceSetNestedModel.fnConvert_unknown, TfColl.ElementsAs]
  | elems xs =>
    simp only [ResourceSetNestedModel.fnConvert_known_set, TfColl.ElementsAs, true_and]
    have key : ∀ n : Nat,
        (List.mapIdx ResourceSetNestedModel.loopBody
          (List.mapIdx ResourceSetNestedModel.loopBody xs))[n]?
        = (List.map (fun y : SetNestedModel => { y with FixedIpV4 := y.FixedIp })
            (List.mapIdx ResourceSetNestedModel.loopBody xs))[n]? := by
      intro n
      simp only [List.getElem?_mapIdx, List.getElem?_map, Option.map_map]
      cases xs[n]? with
      | none => rfl
      | some x => simp [ResourceSetNestedModel.loopBody_loopBody]
    refine ⟨List.ext_getElem? key, ?_⟩
    intro hknown
    have same : List.mapIdx ResourceSetNestedModel.loopBody
          (List.mapIdx ResourceSetNestedModel.loopBody xs)
        = List.mapIdx ResourceSetNestedModel.loopBody xs := by
      apply List.ext_getElem?
      intro n
      rw [key n]
      simp only [List.getElem?_mapIdx, List.getElem?_map, Option.map_map]
      cases hn : xs[n]? with
      | none => rfl
      | some x =>
        have hx := hknown x (List.getElem?_mem hn)
        have h2 := ResourceSetNestedModel.loopBody_set n x hx
        simp only [Option.map_some', Function.comp_apply, Option.some.injEq]
        generalize ResourceSetNestedModel.loopBody n x = y at h2
        cases y
        simp only at h2
        simp [h2.1, h2.2]
    rw [same]

theorem C3_second_application_witness :
    (∀ x ∈ (ResourceSetNestedModel.mk TfString.null (TfColl.elems [sampleB])).SetNested.ElementsAs.1,
        (x.FixedIp.IsNull || x.FixedIp.IsUnknown) = false)
    ∧ ResourceSetNestedModel.fnConvert
        (ResourceSetNestedModel.fnConvert ⟨TfString.null, TfColl.elems [sampleB]⟩).1
      = ResourceSetNestedModel.fnConvert ⟨TfString.null, TfColl.elems [sampleB]⟩ :=
  ⟨by decide,
    (C3_second_application ⟨TfString.null, TfColl.elems [sampleB]⟩).2.2.2 (by decide)⟩

/-! ## Claims on `ResourceComputedModel.fnConvert` -/

theorem ResourceComputedModel.rangeLoop_eq_map (done rest : List String) :
    ResourceComputedModel.rangeLoop done.length rest (done ++ rest)
      = done ++ rest.map (fun v => v ++ "_replace") := by
  induction rest generalizing done with
  | nil => simp [ResourceComputedModel.rangeLoop]
  | cons v rest ih =>
    rw [ResourceComputedModel.rangeLoop, List.set_append_right _ _ (Nat.le_refl _)]
    have h := ih (done ++ [v ++ "_replace"])
    simp only [List.length_append, List.length_singleton, List.append_assoc,
      List.singleton_append] at h
    simpa using h

theorem ResourceComputedModel.rangeLoop_zero_map (list : List String) :
    ResourceComputedModel.rangeLoop 0 list list = list.map (fun v => v ++ "_replace") := by
  simpa using ResourceComputedModel.rangeLoop_eq_map [] list

theorem decodeStrings_values (xs : List String) :
    decodeStrings (xs.map TfString.value) = Except.ok xs := by
  induction xs with
  | nil => rfl
  | cons v rest ih => simp [decodeStrings, ih]

theorem ResourceComputedModel.fnConvert_strings (m : ResourceComputedModel) (xs : List String)
    (hne : xs ≠ []) (hm : m.ListOptional = TfColl.elems (xs.map TfString.value)) :
    ResourceComputedModel.fnConvert m
      = ({ m with ListOptional :=
            TfColl.elems ((xs.map (fun v => v ++ "_replace")).map TfString.value) }, []) := by
  have hlen : 0 < xs.length := List.length_pos.mpr hne
  simp [ResourceComputedModel.fnConvert, hm, TfColl.IsNull, TfColl.IsUnknown, ElementsAsStrings,
    decodeStrings_values, HasError, ValueFrom, ResourceComputedModel.rangeLoop_zero_map, hlen]

theorem ResourceComputedModel.fnConvert_absent (m : ResourceComputedModel)
    (hm : m.ListOptional = TfColl.null ∨ m.ListOptional = TfColl.unknown
      ∨ m.ListOptional = TfColl.elems []) :
    ResourceComputedModel.fnConvert m = (m, []) := by
  rcases hm with h | h | h <;>
    simp [ResourceComputedModel.fnConvert, h, TfColl.IsNull, TfColl.IsUnknown, ElementsAsStrings,
      decodeStrings, HasError]

theorem ResourceComputed.refresh_eq (prior : ResourceComputedModel)
    (h : (ResourceComputedModel.fnConvert prior).2 = []) :
    ResourceComputed.refresh prior = (ResourceComputedModel.fnConvert prior).1 := by
  simp [ResourceComputed.refresh, ResourceComputed.Read, HasError, h]

theorem append_replace_ne (v : String) : v ++ "_replace" ≠ v := by
  intro h
  have hl := congrArg String.length h
  rw [String.length_append] at hl
  have : "_replace".length = 8 := by decide
  omega

theorem map_replace_ne (xs : List String) (hne : xs ≠ []) :
    (xs.map (fun v => v ++ "_replace")).map TfString.value ≠ xs.map TfString.value := by
  cases xs with
  | nil => exact absurd rfl hne
  | cons v rest =>
    intro h
    simp only [List.map_cons, List.cons.injEq, TfString.value.injEq] at h
    exact append_replace_ne v h.1

/-- C4 (counterexample): the state whose `list_optional` is the known list ["a"] is
refreshed to a state whose `list_optional` is ["a_replace"], and a second `fnConvert`
gives ["a_replace_replace"]. -/
theorem C4_refresh_not_idempotent :
    (ResourceComputed.refresh (sampleComputed ["a"])).ListOptional
        = TfColl.elems [TfString.value "a_replace"]
    ∧ ¬ (ResourceComputed.refresh (sampleComputed ["a"]) = sampleComputed ["a"])
    ∧ (ResourceComputedModel.fnConvert
        (ResourceComputedModel.fnConvert (sampleComputed ["a"])).1).1.ListOptional
        = TfColl.elems [TfString.value "a_replace_replace"]
    ∧ ¬ (ResourceComputedModel.fnConvert
          (ResourceComputedModel.fnConvert (sampleComputed ["a"])).1
        = ResourceComputedModel.fnConvert (sampleComputed ["a"])) := by
  decide

/-- C4 (amended): for every state whose `list_optional` is a known list of strings `xs`,
`Read` writes back the state with "_replace" appended to every element of the list; the
written state equals the prior state exactly when `xs` is empty, and
`fnConvert (fnConvert m) = fnConvert m` holds exactly when `xs` is empty. -/
theorem C4_refresh_appends_replace (m : ResourceComputedModel) (xs : List String)
    (hm : m.ListOptional = TfColl.elems (xs.map TfString.value)) :
    ResourceComputed.refresh m
        = { m with ListOptional :=
              TfColl.elems ((xs.map (fun v => v ++ "_replace")).map TfString.value) }
    ∧ (ResourceComputed.refresh m = m ↔ xs = [])
    ∧ (ResourceComputedModel.fnConvert (ResourceComputedModel.fnConvert m).1
        = ResourceComputedModel.fnConvert m ↔ xs = []) := by
  by_cases hx : xs = []
  · subst hx
    have h0 : ResourceComputedModel.fnConvert m = (m, []) :=
      ResourceComputedModel.fnConvert_absent m (Or.inr (Or.inr hm))
    have hr : ResourceComputed.refresh m = m := by
      rw [ResourceComputed.refresh_eq m (by rw [h0]), h0]
    refine ⟨?_, ?_, ?_⟩
    · rw [hr]
      cases m
      simp only [List.map_nil] at hm ⊢
      simp [hm]
    · simp [hr]
    · simp [h0]
  · have h1 := ResourceComputedModel.fnConvert_strings m xs hx hm
    have hr : ResourceComputed.refresh m = (ResourceComputedModel.fnConvert m).1 :=
      ResourceComputed.refresh_eq m (by rw [h1])
    have hx2 : xs.map (fun v => v ++ "_replace") ≠ [] := by simpa using hx
    have h2 := ResourceComputedModel.fnConvert_strings
      (ResourceComputedModel.fnConvert m).1 (xs.map (fun v => v ++ "_replace")) hx2
      (by rw [h1])
    refine ⟨by rw [hr, h1], ?_, ?_⟩
    · constructor
      · intro h
        rw [hr, h1] at h
        have hl := congrArg ResourceComputedModel.ListOptional h
        simp only [hm, TfColl.elems.injEq] at hl
        exact absurd hl (map_replace_ne xs hx)
      · intro h
        exact absurd h hx
    · constructor
      · intro h
        rw [h2] at h
        have hl := congrArg (fun r => r.1.ListOptional) h
        simp only [h1, TfColl.elems.injEq] at hl
        exact absurd hl (map_replace_ne _ hx2)
      · intro h
        exact absurd h hx

theorem C4_refresh_appends_replace_witness :
    (sampleComputed ["a", "b"]).ListOptional = TfColl.elems (["a", "b"].map TfString.value)
    ∧ ResourceComputed.refresh (sampleComputed ["a", "b"])
        = sampleComputed ["a_replace", "b_replace"]
    ∧ (ResourceComputed.refresh (sampleComputed ["a", "b"]) = sampleComputed ["a", "b"]
        ↔ ["a", "b"] = [])
    ∧ (ResourceComputedModel.fnConvert
          (ResourceComputedModel.fnConvert (sampleComputed ["a", "b"])).1
        = ResourceComputedModel.fnConvert (sampleComputed ["a", "b"]) ↔ ["a", "b"] = []) :=
  ⟨rfl, C4_refresh_appends_replace (sampleComputed ["a", "b"]) ["a", "b"] rfl⟩

/-- C9: for every known, non-empty `list_optional` of strings `xs`, `fnConvert` returns no
diagnostics and leaves a known list of the same length whose `i`-th element is `xs[i]`
followed by "_replace", so the output order is the input order. -/
theorem C9_list_order_preserved (m : ResourceComputedModel) (xs : List String)
    (hne : xs ≠ []) (hm : m.ListOptional = TfColl.elems (xs.map TfString.value)) :
    ∃ out : List TfString,
      (ResourceComputedModel.fnConvert m).1.ListOptional = TfColl.elems out
      ∧ (ResourceComputedModel.fnConvert m).2 = []
      ∧ out.length = xs.length
      ∧ ∀ i : Nat, out[i]? = Option.map (fun v => TfString.value (v ++ "_replace")) xs[i]? := by
  refine ⟨(xs.map (fun v => v ++ "_replace")).map TfString.value, ?_, ?_, ?_, ?_⟩
  · rw [ResourceComputedModel.fnConvert_strings m xs hne hm]
  · rw [ResourceComputedModel.fnConvert_strings m xs hne hm]
  · simp
  · intro i
    simp [List.getElem?_map, Option.map_map, Function.comp_def]

theorem C9_list_order_preserved_witness :
    ["b", "a"] ≠ []
    ∧ (sampleComputed ["b", "a"]).ListOptional = TfColl.elems (["b", "a"].map TfString.value)
    ∧ ∃ out : List TfString,
      (ResourceComputedModel.fnConvert (sampleComputed ["b", "a"])).1.ListOptional
        = TfColl.elems out
      ∧ (ResourceComputedModel.fnConvert (sampleComputed ["b", "a"])).2 = []
      ∧ out.length = ["b", "a"].length
      ∧ ∀ i : Nat, out[i]?
          = Option.map (fun v => TfString.value (v ++ "_replace")) ["b", "a"][i]? :=
  ⟨by decide, rfl, C9_list_order_preserved (sampleComputed ["b", "a"]) ["b", "a"] (by decide) rfl⟩

/-! ## Further claims on `ResourceSetNestedModel.fnConvert` -/

/-- C5: for every input element sequence and every index `i` of it, the `i`-th output
element has port "port_id_" followed by the decimal rendering of `i` and mac
"mac_address_" followed by the decimal rendering of `i`; any other input with an element
at index `i` yields the same port and mac there, whatever its elements hold. -/
theorem C5_generated_port_mac (id : TfString) (xs : List SetNestedModel) (i : Nat)
    (hi : i < xs.length) :
    (∃ y, (ResourceSetNestedModel.converted id xs)[i]? = some y
      ∧ y.Port = TfString.value ("port_id_" ++ Nat.repr i)
      ∧ y.Mac = TfString.value ("mac_address_" ++ Nat.repr i))
    ∧ ∀ (id2 : TfString) (ys : List SetNestedModel), i < ys.length →
        Option.map SetNestedModel.Port (ResourceSetNestedModel.converted id2 ys)[i]?
          = Option.map SetNestedModel.Port (ResourceSetNestedModel.converted id xs)[i]?
        ∧ Option.map SetNestedModel.Mac (ResourceSetNestedModel.converted id2 ys)[i]?
          = Option.map SetNestedModel.Mac (ResourceSetNestedModel.converted id xs)[i]? := by
  constructor
  · refine ⟨ResourceSetNestedModel.loopBody i (xs.get ⟨i, hi⟩), ?_, ?_, ?_⟩
    · rw [ResourceSetNestedModel.converted_getElem?, List.getElem?_eq_getElem hi]
      rfl
    · exact ResourceSetNestedModel.loopBody_Port i _
    · exact ResourceSetNestedModel.loopBody_Mac i _
  · intro id2 ys hys
    rw [ResourceSetNestedModel.converted_getElem?, ResourceSetNestedModel.converted_getElem?,
      List.getElem?_eq_getElem hi, List.getElem?_eq_getElem hys]
    simp [ResourceSetNestedModel.loopBody_Port, ResourceSetNestedModel.loopBody_Mac]

theorem C5_generated_port_mac_witness :
    1 < [sampleA, sampleB].length
    ∧ (∃ y, (ResourceSetNestedModel.converted TfString.null [sampleA, sampleB])[1]? = some y
      ∧ y.Port = TfString.value ("port_id_" ++ Nat.repr 1)
      ∧ y.Mac = TfString.value ("mac_address_" ++ Nat.repr 1))
    ∧ ∀ (id2 : TfString) (ys : List SetNestedModel), 1 < ys.length →
        Option.map SetNestedModel.Port (ResourceSetNestedModel.converted id2 ys)[1]?
          = Option.map SetNestedModel.Port
              (ResourceSetNestedModel.converted TfString.null [sampleA, sampleB])[1]?
        ∧ Option.map SetNestedModel.Mac (ResourceSetNestedModel.converted id2 ys)[1]?
          = Option.map SetNestedModel.Mac
              (ResourceSetNestedModel.converted TfString.null [sampleA, sampleB])[1]? :=
  ⟨by decide, C5_generated_port_mac TfString.null [sampleA, sampleB] 1 (by decide)⟩

/-- C7: for every input sequence of `n` elements, non-empty ones in particular, after
`fnConvert` the set holds exactly `n` elements in the same order, the `i`-th of which has
the uuid and the enable_gateway of the `i`-th input element, and the returned diagnostics
are empty. -/
theorem C7_elements_preserved (id : TfString) (xs : List SetNestedModel) :
    ∃ out : List SetNestedModel,
      (ResourceSetNestedModel.fnConvert ⟨id, TfColl.elems xs⟩).1.SetNested = TfColl.elems out
      ∧ out.length = xs.length
      ∧ (∀ i : Nat, Option.map SetNestedModel.Uuid out[i]?
          = Option.map SetNestedModel.Uuid xs[i]?)
      ∧ (∀ i : Nat, Option.map SetNestedModel.EnableGateway out[i]?
          = Option.map SetNestedModel.EnableGateway xs[i]?)
      ∧ (ResourceSetNestedModel.fnConvert ⟨id, TfColl.elems xs⟩).2 = [] := by
  refine ⟨xs.mapIdx ResourceSetNestedModel.loopBody, ?_, ?_, ?_, ?_, ?_⟩
  · rw [ResourceSetNestedModel.fnConvert_known_set]
  · simp
  · intro i
    rw [List.getElem?_mapIdx]
    cases xs[i]? with
    | none => rfl
    | some x => simp [ResourceSetNestedModel.loopBody_Uuid]
  · intro i
    rw [List.getElem?_mapIdx]
    cases xs[i]? with
    | none => rfl
    | some x => simp [ResourceSetNestedModel.loopBody_EnableGateway]
  · rw [ResourceSetNestedModel.fnConvert_known_set]

/-- Two configured elements give two output elements, with their uuids in input order and
no diagnostics. -/
theorem C7_elements_preserved_witness :
    ∃ out : List SetNestedModel,
      (ResourceSetNestedModel.fnConvert ⟨TfString.null, TfColl.elems [sampleA, sampleB]⟩).1.SetNested
        = TfColl.elems out
      ∧ out.length = 2
      ∧ Option.map SetNestedModel.Uuid out[0]? = some (TfString.value "a")
      ∧ Option.map SetNestedModel.Uuid out[1]? = some (TfString.value "b")
      ∧ (ResourceSetNestedModel.fnConvert ⟨TfString.null, TfColl.elems [sampleA, sampleB]⟩).2
        = [] := by
  obtain ⟨out, h1, h2, h3, _, h5⟩ := C7_elements_preserved TfString.null [sampleA, sampleB]
  exact ⟨out, h1, h2, by rw [h3 0]; rfl, by rw [h3 1]; rfl, h5⟩

/-- C8: for the element `x` at index `i`, if its fixed_ip is null or unknown the output
element has fixed_ip "fixed_ip_<i>" and fixed_ip_v4 "fixed_ip_v4_<i>", otherwise the
output fixed_ip is the input fixed_ip and fixed_ip_v4 is that same value; in both cases
`fnConvert` returns no diagnostic. -/
theorem C8_fixed_ip_default (id : TfString) (xs : List SetNestedModel) (i : Nat)
    (x : SetNestedModel) (hx : xs[i]? = some x) :
    (∃ y, (ResourceSetNestedModel.converted id xs)[i]? = some y
      ∧ if (x.FixedIp.IsNull || x.FixedIp.IsUnknown) = true then
          y.FixedIp = TfString.value (Sprintf "fixed_ip_" i)
            ∧ y.FixedIpV4 = TfString.value (Sprintf "fixed_ip_v4_" i)
        else
          y.FixedIp = x.FixedIp ∧ y.FixedIpV4 = x.FixedIp)
    ∧ (ResourceSetNestedModel.fnConvert ⟨id, TfColl.elems xs⟩).2 = [] := by
  constructor
  · refine ⟨ResourceSetNestedModel.loopBody i x, ?_, ?_⟩
    · rw [ResourceSetNestedModel.converted_getElem?, hx]
      rfl
    · split
      · next h => exact ResourceSetNestedModel.loopBody_unset i x h
      · next h => exact ResourceSetNestedModel.loopBody_set i x (by simpa using h)
  · rw [ResourceSetNestedModel.fnConvert_known_set]

theorem C8_fixed_ip_default_witness :
    [sampleA, sampleB][0]? = some sampleA
    ∧ (∃ y, (ResourceSetNestedModel.converted TfString.null [sampleA, sampleB])[0]? = some y
      ∧ if (sampleA.FixedIp.IsNull || sampleA.FixedIp.IsUnknown) = true then
          y.FixedIp = TfString.value (Sprintf "fixed_ip_" 0)
            ∧ y.FixedIpV4 = TfString.value (Sprintf "fixed_ip_v4_" 0)
        else
          y.FixedIp = sampleA.FixedIp ∧ y.FixedIpV4 = sampleA.FixedIp)
    ∧ (ResourceSetNestedModel.fnConvert ⟨TfString.null, TfColl.elems [sampleA, sampleB]⟩).2
        = [] :=
  ⟨by decide, C8_fixed_ip_default TfString.null [sampleA, sampleB] 0 sampleA (by decide)⟩

/-- C10 (counterexample): on the input of two elements that both have uuid "x",
`fnConvert` returns an empty diagnostics list and stores both elements. -/
theorem C10_duplicate_uuid_no_diagnostic :
    sampleX.Uuid = TfString.value "x"
    ∧ (ResourceSetNestedModel.fnConvert ⟨TfString.null, TfColl.elems [sampleX, sampleX]⟩).2 = []
    ∧ Option.map SetNestedModel.Uuid
        (ResourceSetNestedModel.converted TfString.null [sampleX, sampleX])[0]?
        = some (TfString.value "x")
    ∧ Option.map SetNestedModel.Uuid
        (ResourceSetNestedModel.converted TfString.null [sampleX, sampleX])[1]?
        = some (TfString.value "x")
    ∧ (ResourceSetNestedModel.converted TfString.null [sampleX, sampleX]).length = 2 := by
  decide

/-- C10 (amended): for every set_nested input in which the elements at two indices `i` and
`j` have the same uuid, `fnConvert` returns an empty diagnostics list and processes both
elements: each keeps the shared uuid and gets the port generated for its own index. -/
theorem C10_duplicate_uuid_processed (id : TfString) (xs : List SetNestedModel) (i j : Nat)
    (a b : SetNestedModel) (ha : xs[i]? = some a) (hb : xs[j]? = some b)
    (hu : a.Uuid = b.Uuid) :
    (ResourceSetNestedModel.fnConvert ⟨id, TfColl.elems xs⟩).2 = []
    ∧ ∃ ya yb, (ResourceSetNestedModel.converted id xs)[i]? = some ya
      ∧ (ResourceSetNestedModel.converted id xs)[j]? = some yb
      ∧ ya.Uuid = a.Uuid ∧ yb.Uuid = a.Uuid
      ∧ ya.Port = TfString.value (Sprintf "port_id_" i)
      ∧ yb.Port = TfString.value (Sprintf "port_id_" j) := by
  refine ⟨by rw [ResourceSetNestedModel.fnConvert_known_set],
    ResourceSetNestedModel.loopBody i a, ResourceSetNestedModel.loopBody j b, ?_, ?_, ?_, ?_, ?_, ?_⟩
  · rw [ResourceSetNestedModel.converted_getElem?, ha]
    rfl
  · rw [ResourceSetNestedModel.converted_getElem?, hb]
    rfl
  · exact ResourceSetNestedModel.loopBody_Uuid i a
  · rw [ResourceSetNestedModel.loopBody_Uuid, hu]
  · exact ResourceSetNestedModel.loopBody_Port i a
  · exact ResourceSetNestedModel.loopBody_Port j b

theorem C10_duplicate_uuid_processed_witness :
    [sampleX, sampleB, sampleX][0]? = some sampleX
    ∧ [sampleX, sampleB, sampleX][2]? = some sampleX
    ∧ sampleX.Uuid = sampleX.Uuid
    ∧ (ResourceSetNestedModel.fnConvert
        ⟨TfString.null, TfColl.elems [sampleX, sampleB, sampleX]⟩).2 = []
    ∧ ∃ ya yb,
      (ResourceSetNestedModel.converted TfString.null [sampleX, sampleB, sampleX])[0]? = some ya
      ∧ (ResourceSetNestedModel.converted TfString.null [sampleX, sampleB, sampleX])[2]? = some yb
      ∧ ya.Uuid = sampleX.Uuid ∧ yb.Uuid = sampleX.Uuid
      ∧ ya.Port = TfString.value (Sprintf "port_id_" 0)
      ∧ yb.Port = TfString.value (Sprintf "port_id_" 2) :=
  ⟨by decide, by decide, rfl,
    C10_duplicate_uuid_processed TfString.null [sampleX, sampleB, sampleX] 0 2 sampleX sampleX
      (by decide) (by decide) rfl⟩

/-! ## Claims on `SetNestedResourceModel.fnConvert` -/

theorem SetNestedResourceModel.rangeLoop_unchanged (sl : List set_nested_resource.SetNestedModel)
    (i : Nat) (xs : List set_nested_resource.SetNestedModel) :
    SetNestedResourceModel.rangeLoop sl i xs = sl := by
  induction xs generalizing i with
  | nil => rfl
  | cons x rest ih => exact ih (i + 1)

/-- The range loop of `SetNestedResourceModel.fnConvert` only changes loop-local copies:
the set stored back holds the input elements unchanged. -/
theorem SetNestedResourceModel.fnConvert_unchanged (id : TfString)
    (xs : List set_nested_resource.SetNestedModel) :
    SetNestedResourceModel.fnConvert ⟨id, TfColl.elems xs⟩ = (⟨id, TfColl.elems xs⟩, []) := by
  cases xs with
  | nil => simp [SetNestedResourceModel.fnConvert, TfColl.ElementsAs,
      SetNestedResourceModel.rangeLoop]
  | cons x rest =>
    simp [SetNestedResourceModel.fnConvert, TfColl.ElementsAs,
      SetNestedResourceModel.rangeLoop_unchanged, ValueFrom]

/-- C6 (code at the failing input): for the one-element set holding the planned element
"a" with unknown port and mac and null fixed_ip, the set written back by
`SetNestedResourceModel.fnConvert` still has port and mac unknown and fixed_ip null at
index 0, instead of "port_id_0", "mac_address_0" and "fixed_ip_0". -/
theorem C6_computed_fields_not_written :
    (SetNestedResourceModel.fnConvert
        ⟨TfString.null, TfColl.elems [set_nested_resource.samplePlanned]⟩).1.SetNested
      = TfColl.elems [⟨TfString.value "a", TfString.null, TfString.unknown, TfString.unknown,
          TfBool.value false⟩]
    ∧ (SetNestedResourceModel.loopBody 0 set_nested_resource.samplePlanned).1.Port
      = TfString.value "port_id_0"
    ∧ (SetNestedResourceModel.loopBody 0 set_nested_resource.samplePlanned).1.Mac
      = TfString.value "mac_address_0"
    ∧ (SetNestedResourceModel.loopBody 0 set_nested_resource.samplePlanned).2
      = TfString.value "fixed_ip_0" := by
  decide

/-! ## Claims on the handlers -/

theorem HasError_append (a b : Diagnostics) :
    HasError (a ++ b) = (HasError a || HasError b) := by
  simp [HasError, List.any_append]

theorem ResourceComputedModel.fnConvert_diags_Id (m : ResourceComputedModel) (x : TfString) :
    (ResourceComputedModel.fnConvert { m with Id := x }).2
      = (ResourceComputedModel.fnConvert m).2 := by
  unfold ResourceComputedModel.fnConvert
  dsimp only
  split
  · split
    · rfl
    · split
      · split <;> rfl
      · rfl
  · rfl

/-- When the decoding or the conversion reported an error and the check after the
decoding let the handler pass, the check after the conversion stops it. -/
theorem HasError_second_check (respD getD fnD : Diagnostics)
    (h : HasError getD = true ∨ HasError fnD = true)
    (h1 : ¬ HasError (Diagnostics.Append respD getD) = true) :
    HasError (Diagnostics.Append (Diagnostics.Append respD getD) fnD) = true := by
  rw [HasError_Append_eq] at h1
  rw [HasError_Append_eq, HasError_Append_eq]
  rcases h with h | h
  · rw [h] at h1
    simp at h1
  · rw [h]
    simp

/-- C11: for each of `Create`, `Read` and `Update` of the computed resource, whenever the
decoding of the plan or prior state reports an error, or `fnConvert` on the decoded model
reports an error, the handler returns without `State.Set`: the response state is the one
on entry, the response diagnostics contain an error, they contain every decoding
diagnostic, and, when `fnConvert` was reached, every diagnostic of `fnConvert`. -/
theorem C11_no_partial_state_on_error {σ : Type}
    (get : ResourceComputedModel × Diagnostics)
    (stateSet : ResourceComputedModel → σ × Diagnostics) (resp : Response σ)
    (h : HasError get.2 = true ∨ HasError (ResourceComputedModel.fnConvert get.1).2 = true) :
    ((ResourceComputed.Create get stateSet resp).State = resp.State
      ∧ HasError (ResourceComputed.Create get stateSet resp).Diagnostics = true
      ∧ (∀ d ∈ get.2, d ∈ (ResourceComputed.Create get stateSet resp).Diagnostics)
      ∧ (HasError (Diagnostics.Append resp.Diagnostics get.2) = false →
          ∀ d ∈ (ResourceComputedModel.fnConvert get.1).2,
            d ∈ (ResourceComputed.Create get stateSet resp).Diagnostics))
    ∧ ((ResourceComputed.Read get stateSet resp).State = resp.State
      ∧ HasError (ResourceComputed.Read get stateSet resp).Diagnostics = true
      ∧ (∀ d ∈ get.2, d ∈ (ResourceComputed.Read get stateSet resp).Diagnostics)
      ∧ (HasError (Diagnostics.Append resp.Diagnostics get.2) = false →
          ∀ d ∈ (ResourceComputedModel.fnConvert get.1).2,
            d ∈ (ResourceComputed.Read get stateSet resp).Diagnostics))
    ∧ ((ResourceComputed.Update get stateSet resp).State = resp.State
      ∧ HasError (ResourceComputed.Update get stateSet resp).Diagnostics = true
      ∧ (∀ d ∈ get.2, d ∈ (ResourceComputed.Update get stateSet resp).Diagnostics)
      ∧ (HasError (Diagnostics.Append resp.Diagnostics get.2) = false →
          ∀ d ∈ (ResourceComputedModel.fnConvert get.1).2,
            d ∈ (ResourceComputed.Update get stateSet resp).Diagnostics)) := by
  have inGet : ∀ (x : Diagnostics) (d : Diagnostic), d ∈ get.2 →
      d ∈ Diagnostics.Append resp.Diagnostics get.2 :=
    fun _ d hd => (Diagnostics.mem_Append _ _ d).mpr (Or.inr hd)
  have inGet2 : ∀ (x : Diagnostics) (d : Diagnostic), d ∈ get.2 →
      d ∈ Diagnostics.Append (Diagnostics.Append resp.Diagnostics get.2) x :=
    fun x d hd => (Diagnostics.mem_Append _ _ d).mpr (Or.inl (inGet x d hd))
  have inFn : ∀ (x : Diagnostics) (d : Diagnostic), d ∈ x →
      d ∈ Diagnostics.Append (Diagnostics.Append resp.Diagnostics get.2) x :=
    fun x d hd => (Diagnostics.mem_Append _ _ d).mpr (Or.inr hd)
  refine ⟨?_, ?_, ?_⟩
  · have hc : HasError get.2 = true ∨ HasError (ResourceComputedModel.fnConvert
        { get.1 with Id := TfString.value "id-f91f202e-abe3-40b6-9d7d-f35fb3bf0471" }).2
          = true := by
      rw [ResourceComputedModel.fnConvert_diags_Id]
      exact h
    unfold ResourceComputed.Create
    dsimp only
    by_cases h1 : HasError (Diagnostics.Append resp.Diagnostics get.2) = true
    · rw [if_pos h1]
      refine ⟨rfl, h1, fun d hd => inGet [] d hd, ?_⟩
      intro hf
      rw [hf] at h1
      exact absurd h1 (by decide)
    · rw [if_neg h1, if_pos (HasError_second_check _ _ _ hc h1)]
      refine ⟨rfl, HasError_second_check _ _ _ hc h1, fun d hd => inGet2 _ d hd, ?_⟩
      intro _ d hd
      rw [ResourceComputedModel.fnConvert_diags_Id]
      exact inFn _ d hd
  · unfold ResourceComputed.Read
    dsimp only
    by_cases h1 : HasError (Diagnostics.Append resp.Diagnostics get.2) = true
    · rw [if_pos h1]
      refine ⟨rfl, h1, fun d hd => inGet [] d hd, ?_⟩
      intro hf
      rw [hf] at h1
      exact absurd h1 (by decide)
    · rw [if_neg h1, if_pos (HasError_second_check _ _ _ h h1)]
      exact ⟨rfl, HasError_second_check _ _ _ h h1, fun d hd => inGet2 _ d hd,
        fun _ d hd => inFn _ d hd⟩
  · unfold ResourceComputed.Update
    dsimp only
    by_cases h1 : HasError (Diagnostics.Append resp.Diagnostics get.2) = true
    · rw [if_pos h1]
      refine ⟨rfl, h1, fun d hd => inGet [] d hd, ?_⟩
      intro hf
      rw [hf] at h1
      exact absurd h1 (by decide)
    · rw [if_neg h1, if_pos (HasError_second_check _ _ _ h h1)]
      exact ⟨rfl, HasError_second_check _ _ _ h h1, fun d hd => inGet2 _ d hd,
        fun _ d hd => inFn _ d hd⟩

theorem C11_no_partial_state_on_error_witness :
    HasError (ResourceComputedModel.fnConvert sampleComputedBad).2 = true
    ∧ (ResourceComputed.Create (sampleComputedBad, []) (fun data => (data, []))
        ⟨sampleComputed ["kept"], []⟩).State = sampleComputed ["kept"]
    ∧ (ResourceComputed.Read (sampleComputedBad, []) (fun data => (data, []))
        ⟨sampleComputed ["kept"], []⟩).State = sampleComputed ["kept"]
    ∧ (ResourceComputed.Update (sampleComputedBad, []) (fun data => (data, []))
        ⟨sampleComputed ["kept"], []⟩).State = sampleComputed ["kept"]
    ∧ HasError (ResourceComputed.Update (sampleComputedBad, []) (fun data => (data, []))
        ⟨sampleComputed ["kept"], []⟩).Diagnostics = true := by
  have h := C11_no_partial_state_on_error (sampleComputedBad, []) (fun data => (data, []))
    ⟨sampleComputed ["kept"], []⟩ (Or.inr (by decide))
  exact ⟨by decide, h.1.1, h.2.1.1, h.2.2.1, h.2.2.2.1⟩

/-- C12 (code at the failing input): for a model whose `set_nested` is unknown,
`ElementsAs` reports an error, yet `fnConvert` returns an empty diagnostics list and
`Create` goes on to write the state. -/
theorem C12_decode_error_dropped :
    HasError (TfColl.unknown : TfColl SetNestedModel).ElementsAs.2 = true
    ∧ ResourceSetNestedModel.fnConvert ⟨TfString.value "example-id", TfColl.unknown⟩
        = (⟨TfString.value "example-id", TfColl.unknown⟩, [])
    ∧ HasError (ResourceSetNestedModel.fnConvert
        ⟨TfString.value "example-id", TfColl.unknown⟩).2 = false
    ∧ (ResourceSetNested.Create (⟨TfString.unknown, TfColl.unknown⟩, [])
          (fun data => (data, [])) ⟨⟨TfString.null, TfColl.null⟩, []⟩).State
        = ⟨TfString.value "example-id", TfColl.unknown⟩
    ∧ (ResourceSetNested.Create (⟨TfString.unknown, TfColl.unknown⟩, [])
          (fun data => (data, [])) ⟨⟨TfString.null, TfColl.null⟩, []⟩).Diagnostics = [] := by
  decide

/-- C13: for every plan that decodes without an error into (id, name = n, alias = a),
with no error in the response on entry, `Create` of both regex resources hands to
`State.Set` the model with id "example-id", name `n` and alias `a`, and the response
diagnostics are those on entry with those of the two framework calls appended, so
`Create` adds none of its own. -/
theorem C13_regex_create {σ τ : Type} (id n a : TfString) (getD : Diagnostics)
    (stateSet : RegexResourceModel → σ × Diagnostics)
    (stateSet2 : ResourceRegexModel → τ × Diagnostics)
    (resp : Response σ) (resp2 : Response τ)
    (hget : HasError getD = false) (hresp : HasError resp.Diagnostics = false)
    (hresp2 : HasError resp2.Diagnostics = false) :
    (RegexResource.Create (⟨id, n, a⟩, getD) stateSet resp).State
        = (stateSet ⟨TfString.value "example-id", n, a⟩).1
    ∧ (RegexResource.Create (⟨id, n, a⟩, getD) stateSet resp).Diagnostics
        = Diagnostics.Append (Diagnostics.Append resp.Diagnostics getD)
            (stateSet ⟨TfString.value "example-id", n, a⟩).2
    ∧ (ResourceRegex.Create (⟨id, n, a⟩, getD) stateSet2 resp2).State
        = (stateSet2 ⟨TfString.value "example-id", n, a⟩).1
    ∧ (ResourceRegex.Create (⟨id, n, a⟩, getD) stateSet2 resp2).Diagnostics
        = Diagnostics.Append (Diagnostics.Append resp2.Diagnostics getD)
            (stateSet2 ⟨TfString.value "example-id", n, a⟩).2 := by
  have h1 : ¬ HasError (Diagnostics.Append resp.Diagnostics getD) = true := by
    rw [HasError_Append_eq, hget, hresp]
    decide
  have h2 : ¬ HasError (Diagnostics.Append resp2.Diagnostics getD) = true := by
    rw [HasError_Append_eq, hget, hresp2]
    decide
  unfold RegexResource.Create ResourceRegex.Create
  dsimp only
  rw [if_neg h1, if_neg h2]
  exact ⟨rfl, rfl, rfl, rfl⟩

theorem C13_regex_create_witness :
    HasError ([] : Diagnostics) = false
    ∧ (RegexResource.Create
          (⟨TfString.unknown, TfString.value "router1", TfString.null⟩, [])
          (fun data => (data, [])) ⟨⟨TfString.null, TfString.null, TfString.null⟩, []⟩).State
        = ⟨TfString.value "example-id", TfString.value "router1", TfString.null⟩
    ∧ (RegexResource.Create
          (⟨TfString.unknown, TfString.value "router1", TfString.null⟩, [])
          (fun data => (data, []))
          ⟨⟨TfString.null, TfString.null, TfString.null⟩, []⟩).Diagnostics = []
    ∧ (ResourceRegex.Create
          (⟨TfString.unknown, TfString.value "router1", TfString.null⟩, [])
          (fun data => (data, [])) ⟨⟨TfString.null, TfString.null, TfString.null⟩, []⟩).State
        = ⟨TfString.value "example-id", TfString.value "router1", TfString.null⟩
    ∧ (ResourceRegex.Create
          (⟨TfString.unknown, TfString.value "router1", TfString.null⟩, [])
          (fun data => (data, []))
          ⟨⟨TfString.null, TfString.null, TfString.null⟩, []⟩).Diagnostics = [] :=
  ⟨rfl, C13_regex_create TfString.unknown (TfString.value "router1") TfString.null []
    (fun data => (data, [])) (fun data => (data, []))
    ⟨⟨TfString.null, TfString.null, TfString.null⟩, []⟩
    ⟨⟨TfString.null, TfString.null, TfString.null⟩, []⟩ rfl rfl rfl⟩

/-! ## Claims on the plan modifiers of `ResourceComputed.Schema` -/

/-- C14: the attribute `replace` of the computed resource is declared with
`RequiresReplace`; for every prior state whose `replace` is a known value `p` and every
configuration whose `replace` is some `c` different from `p`, the reconciliation yields
the action Replace, whatever the other attributes hold. -/
theorem C14_replace_forces_replace (prior config : String → TfString) (p : String)
    (c : TfString) (hp : prior "replace" = TfString.value p) (hc : config "replace" = c)
    (hne : c ≠ TfString.value p) :
    (ResourceComputed.Schema.find? (fun a => a.Name == "replace")).map Attribute.PlanModifiers
        = some [PlanModifier.RequiresReplace]
    ∧ (ResourceReconciler.reconcile ResourceComputed.Schema (some prior) config).action
        = Action.Replace := by
  refine ⟨by decide, ?_⟩
  have hne2 : ¬ TfString.value p = c := fun h => hne h.symm
  simp [ResourceReconciler.reconcile, ResourceComputed.Schema, AttributeModifier.resolve,
    ModifierKind.ofPlanModifiers, hp, hc, hne, hne2, TfString.IsNull, TfString.IsUnknown]

theorem C14_replace_forces_replace_witness :
    scalarsOf (TfString.value "i") (TfString.value "old") TfString.null TfString.null "replace"
        = TfString.value "old"
    ∧ scalarsOf (TfString.value "i") (TfString.value "new") TfString.null TfString.null
        "replace" = TfString.value "new"
    ∧ TfString.value "new" ≠ TfString.value "old"
    ∧ (ResourceReconciler.reconcile ResourceComputed.Schema
        (some (scalarsOf (TfString.value "i") (TfString.value "old") TfString.null
          TfString.null))
        (scalarsOf (TfString.value "i") (TfString.value "new") TfString.null
          TfString.null)).action = Action.Replace :=
  ⟨by decide, by decide, by decide,
    (C14_replace_forces_replace
      (scalarsOf (TfString.value "i") (TfString.value "old") TfString.null TfString.null)
      (scalarsOf (TfString.value "i") (TfString.value "new") TfString.null TfString.null)
      "old" (TfString.value "new") (by decide) (by decide) (by decide)).2⟩

/-- C15: the attributes `id` and `use_state_for_unknown` of the computed resource are
declared with `UseStateForUnknown`; whenever the configured value of one of them is
Unknown, the value resolved for it is the value of the prior state, for every prior value,
Null included. -/
theorem C15_unknown_takes_prior (prior config : String → TfString) (a : String)
    (ha : a = "id" ∨ a = "use_state_for_unknown") (hc : config a = TfString.unknown) :
    (ResourceComputed.Schema.find? (fun x => x.Name == a)).map Attribute.PlanModifiers
        = some [PlanModifier.UseStateForUnknown]
    ∧ (ResourceReconciler.reconcile ResourceComputed.Schema (some prior) config).newState.lookup a
        = some (prior a) := by
  rcases ha with ha | ha
  · subst ha
    refine ⟨by decide, ?_⟩
    have hl : (ResourceReconciler.reconcile ResourceComputed.Schema (some prior) config).newState
        = (ResourceComputed.Schema.filter (fun a => a.Kind == AttributeKind.Scalar)).map
            (fun a => (a.Name, (AttributeModifier.resolve
              (ModifierKind.ofPlanModifiers a.PlanModifiers) (some (prior a.Name))
              (config a.Name)).1)) := by
      unfold ResourceReconciler.reconcile
      dsimp only
      split <;> [skip; split] <;> simp [List.map_map, Function.comp_def]
    rw [hl]
    simp [ResourceComputed.Schema, AttributeModifier.resolve, ModifierKind.ofPlanModifiers, hc,
      TfString.IsUnknown, List.lookup]
  · subst ha
    refine ⟨by decide, ?_⟩
    have hl : (ResourceReconciler.reconcile ResourceComputed.Schema (some prior) config).newState
        = (ResourceComputed.Schema.filter (fun a => a.Kind == AttributeKind.Scalar)).map
            (fun a => (a.Name, (AttributeModifier.resolve
              (ModifierKind.ofPlanModifiers a.PlanModifiers) (some (prior a.Name))
              (config a.Name)).1)) := by
      unfold ResourceReconciler.reconcile
      dsimp only
      split <;> [skip; split] <;> simp [List.map_map, Function.comp_def]
    rw [hl]
    simp [ResourceComputed.Schema, AttributeModifier.resolve, ModifierKind.ofPlanModifiers, hc,
      TfString.IsUnknown, List.lookup]

theorem C15_unknown_takes_prior_witness :
    ("id" = "id" ∨ "id" = "use_state_for_unknown")
    ∧ scalarsOf TfString.unknown TfString.null TfString.null TfString.null "id"
        = TfString.unknown
    ∧ (ResourceReconciler.reconcile ResourceComputed.Schema
        (some (scalarsOf TfString.null (TfString.value "r") TfString.null TfString.null))
        (scalarsOf TfString.unknown TfString.null TfString.null
          TfString.null)).newState.lookup "id"
      = some TfString.null :=
  ⟨Or.inl rfl, by decide,
    (C15_unknown_takes_prior
      (scalarsOf TfString.null (TfString.value "r") TfString.null TfString.null)
      (scalarsOf TfString.unknown TfString.null TfString.null TfString.null) "id"
      (Or.inl rfl) (by decide)).2⟩

/-! ## Claims on the validators -/

/-- C16 (code at the failing input): the single-letter name "a" satisfies the rule of the
validator message (non-empty, letters, digits and hyphens only, begins with a letter,
does not end with a hyphen), yet the pattern `^[a-zA-Z][a-zA-Z0-9-]*[a-zA-Z0-9]$` does
not match it and the validators of `name` reject it; the two-letter name "ab" is
accepted. -/
theorem C16_single_letter_name_rejected :
    nameRuleOfMessage "a" = true
    ∧ RegexMatches nameRegex "a" = false
    ∧ RegexResource.validateName "a" = false
    ∧ RegexMatches nameRegex "ab" = true := by
  decide

/-- C17 (code at the failing input): the alias "a." ends with a dot and is matched by the
`alias` pattern and accepted by all validators of `alias`; an alias beginning with a dot,
".a", is rejected. -/
theorem C17_alias_ending_with_dot_accepted :
    "a.".toList.getLast? = some '.'
    ∧ RegexMatches aliasRegex "a." = true
    ∧ RegexResource.validateAlias "a." = true
    ∧ RegexMatches aliasRegex ".a" = false := by
  decide

/-- C18 (code at the failing input): the alias "a、b" holds the character U+3001 of the
full-width range U+3000 to U+303F at its second position and is matched by the `alias`
pattern and accepted by all validators of `alias`; an alias holding one of the
characters / : * ? " < > |, such as "a/b", is rejected. -/
theorem C18_full_width_inside_accepted :
    "a、b".toList.map Char.toNat = [97, 0x3001, 98]
    ∧ "a、b".toList.any forbiddenOfMessage = true
    ∧ RegexMatches aliasRegex "a、b" = true
    ∧ RegexResource.validateAlias "a、b" = true
    ∧ RegexMatches aliasRegex "a/b" = false := by
  decide

/-- C19 (code at the failing input): the one-character name "a" has length 1, holds no
forbidden character and no dot, and passes `LengthAtLeast(1)` and `LengthAtMost(32)`,
yet the pattern of `name` in `modifier_resource.go`, whose middle part is `{1,32}`, does
not match it, so the validators do not all accept it; the two-character name "ab" is
accepted. -/
theorem C19_one_character_name_rejected :
    "a".utf8ByteSize = 1
    ∧ "a".toList.any forbiddenOfMessage = false
    ∧ LengthAtLeast 1 "a" = true
    ∧ LengthAtMost 32 "a" = true
    ∧ RegexMatches modifierNameRegex "a" = false
    ∧ ModifierResource.validateName "a" = false
    ∧ ModifierResource.validateName "ab" = true := by
  decide

/-! ## Claims on the `/echo` handler -/

/-- C20 (code at the failing input): for a request carrying the key "X-A" with the two
values "1" and "2", the key "X-E" with the empty value and the key "X-B" with the value
"b", the response carries only "2" for "X-A" and nothing for "X-E"; "X-B" is carried as
it came. -/
theorem C20_echo_headers_not_identical :
    Header.Values sampleEchoRequest.Header "X-A" = ["1", "2"]
    ∧ Header.Values (echoHandler sampleEchoRequest).Header "X-A" = ["2"]
    ∧ Header.Values sampleEchoRequest.Header "X-E" = [""]
    ∧ Header.Values (echoHandler sampleEchoRequest).Header "X-E" = []
    ∧ Header.Values (echoHandler sampleEchoRequest).Header "X-B" = ["b"]
    ∧ (echoHandler sampleEchoRequest).Status = 200 := by
  decide

/-! ## The matcher decides the language of a regular expression -/

theorem Regex.Matches_none_iff (w : List Char) : Regex.Matches Regex.none w ↔ False := by
  constructor
  · intro h
    cases h
  · intro h
    exact h.elim

theorem Regex.Matches_eps_iff (w : List Char) : Regex.Matches Regex.eps w ↔ w = [] := by
  constructor
  · intro h
    cases h
    rfl
  · intro h
    subst h
    exact Regex.Matches.eps

theorem Regex.Matches_cls_iff (k : CharClass) (w : List Char) :
    Regex.Matches (Regex.cls k) w ↔ ∃ x, w = [x] ∧ k.contains x = true := by
  constructor
  · intro h
    cases h with
    | cls _ x hx => exact ⟨x, rfl, hx⟩
  · rintro ⟨x, rfl, hx⟩
    exact Regex.Matches.cls k x hx

theorem Regex.Matches_alt_iff (r s : Regex) (w : List Char) :
    Regex.Matches (Regex.alt r s) w ↔ Regex.Matches r w ∨ Regex.Matches s w := by
  constructor
  · intro h
    cases h with
    | altLeft _ _ _ h => exact Or.inl h
    | altRight _ _ _ h => exact Or.inr h
  · rintro (h | h)
    · exact Regex.Matches.altLeft r s w h
    · exact Regex.Matches.altRight r s w h

theorem Regex.Matches_cat_iff (r s : Regex) (w : List Char) :
    Regex.Matches (Regex.cat r s) w
      ↔ ∃ u v, w = u ++ v ∧ Regex.Matches r u ∧ Regex.Matches s v := by
  constructor
  · intro h
    cases h with
    | cat _ _ u v hu hv => exact ⟨u, v, rfl, hu, hv⟩
  · rintro ⟨u, v, rfl, hu, hv⟩
    exact Regex.Matches.cat r s u v hu hv

/-- A non-empty text matched by `r*` starts with a non-empty text matched by `r`. -/
theorem Regex.Matches_star_cons (r : Regex) (x : Char) (w : List Char)
    (h : Regex.Matches (Regex.star r) (x :: w)) :
    ∃ u v, w = u ++ v ∧ Regex.Matches r (x :: u) ∧ Regex.Matches (Regex.star r) v := by
  have gen : ∀ (q : Regex) (l : List Char), Regex.Matches q l → q = Regex.star r →
      l = x :: w →
      ∃ u v, w = u ++ v ∧ Regex.Matches r (x :: u) ∧ Regex.Matches (Regex.star r) v := by
    intro q l hm
    induction hm with
    | eps => intro hq; cases hq
    | cls k y hy => intro hq; cases hq
    | altLeft r1 s1 w1 h1 _ => intro hq; cases hq
    | altRight r1 s1 w1 h1 _ => intro hq; cases hq
    | cat r1 s1 u v hu hv _ _ => intro hq; cases hq
    | starNil r1 => intro _ hl; cases hl
    | starCons r1 u v hu hv _ ihv =>
      intro hq hl
      cases hq
      cases u with
      | nil => exact ihv rfl (by simpa using hl)
      | cons y u1 =>
        simp only [List.cons_append, List.cons.injEq] at hl
        obtain ⟨hy, hw⟩ := hl
        subst hy
        exact ⟨u1, v, hw.symm, hu, hv⟩
  exact gen _ _ h rfl rfl

theorem Regex.nullable_iff (r : Regex) : r.nullable = true ↔ Regex.Matches r [] := by
  induction r with
  | none => simp [Regex.nullable, Regex.Matches_none_iff]
  | eps => simp [Regex.nullable, Regex.Matches_eps_iff]
  | cls k => simp [Regex.nullable, Regex.Matches_cls_iff]
  | alt r s ihr ihs => simp [Regex.nullable, Regex.Matches_alt_iff, ihr, ihs]
  | cat r s ihr ihs =>
    simp only [Regex.nullable, Bool.and_eq_true, ihr, ihs, Regex.Matches_cat_iff]
    constructor
    · rintro ⟨h1, h2⟩
      exact ⟨[], [], rfl, h1, h2⟩
    · rintro ⟨u, v, huv, h1, h2⟩
      have hu : u = [] := (List.append_eq_nil.mp huv.symm).1
      have hv : v = [] := (List.append_eq_nil.mp huv.symm).2
      subst hu hv
      exact ⟨h1, h2⟩
  | star r _ =>
    simp only [Regex.nullable, true_iff]
    exact Regex.Matches.starNil r

theorem Regex.deriv_iff (r : Regex) (x : Char) (w : List Char) :
    Regex.Matches (r.deriv x) w ↔ Regex.Matches r (x :: w) := by
  induction r generalizing w with
  | none => simp [Regex.deriv, Regex.Matches_none_iff]
  | eps => simp [Regex.deriv, Regex.Matches_none_iff, Regex.Matches_eps_iff]
  | cls k =>
    unfold Regex.deriv
    by_cases hk : k.contains x = true
    · rw [if_pos hk, Regex.Matches_eps_iff, Regex.Matches_cls_iff]
      constructor
      · intro hw
        subst hw
        exact ⟨x, rfl, hk⟩
      · rintro ⟨y, hy, _⟩
        simp only [List.cons.injEq] at hy
        exact hy.2
    · rw [if_neg hk, Regex.Matches_none_iff, Regex.Matches_cls_iff]
      constructor
      · intro h
        exact h.elim
      · rintro ⟨y, hy, hc⟩
        simp only [List.cons.injEq] at hy
        rw [← hy.1] at hc
        exact hk hc
  | alt r s ihr ihs => simp [Regex.deriv, Regex.Matches_alt_iff, ihr, ihs]
  | cat r s ihr ihs =>
    have split : Regex.Matches (Regex.cat r s) (x :: w)
        ↔ (∃ u v, w = u ++ v ∧ Regex.Matches r (x :: u) ∧ Regex.Matches s v)
          ∨ (Regex.Matches r [] ∧ Regex.Matches s (x :: w)) := by
      rw [Regex.Matches_cat_iff]
      constructor
      · rintro ⟨u, v, huv, hu, hv⟩
        cases u with
        | nil =>
          simp only [List.nil_append] at huv
          subst huv
          exact Or.inr ⟨hu, hv⟩
        | cons y u1 =>
          simp only [List.cons_append, List.cons.injEq] at huv
          obtain ⟨hy, hw⟩ := huv
          subst hy
          exact Or.inl ⟨u1, v, hw, hu, hv⟩
      · rintro (⟨u, v, huv, hu, hv⟩ | ⟨hu, hv⟩)
        · exact ⟨x :: u, v, by simp [huv], hu, hv⟩
        · exact ⟨[], x :: w, rfl, hu, hv⟩
    have left : Regex.Matches (Regex.cat (r.deriv x) s) w
        ↔ ∃ u v, w = u ++ v ∧ Regex.Matches r (x :: u) ∧ Regex.Matches s v := by
      rw [Regex.Matches_cat_iff]
      constructor
      · rintro ⟨u, v, huv, hu, hv⟩
        exact ⟨u, v, huv, (ihr u).mp hu, hv⟩
      · rintro ⟨u, v, huv, hu, hv⟩
        exact ⟨u, v, huv, (ihr u).mpr hu, hv⟩
    unfold Regex.deriv
    by_cases hn : r.nullable = true
    · rw [if_pos hn, Regex.Matches_alt_iff, left, ihs, split]
      have hr : Regex.Matches r [] := (Regex.nullable_iff r).mp hn
      constructor
      · rintro (h | h)
        · exact Or.inl h
        · exact Or.inr ⟨hr, h⟩
      · rintro (h | h)
        · exact Or.inl h
        · exact Or.inr h.2
    · rw [if_neg hn, left, split]
      constructor
      · intro h
        exact Or.inl h
      · rintro (h | h)
        · exact h
        · exact absurd ((Regex.nullable_iff r).mpr h.1) hn
  | star r ihr =>
    unfold Regex.deriv
    rw [Regex.Matches_cat_iff]
    constructor
    · rintro ⟨u, v, huv, hu, hv⟩
      subst huv
      exact Regex.Matches.starCons r (x :: u) v ((ihr u).mp hu) hv
    · intro h
      obtain ⟨u, v, huv, hu, hv⟩ := Regex.Matches_star_cons r x w h
      exact ⟨u, v, huv, (ihr u).mpr hu, hv⟩

/-- The derivative matcher accepts exactly the texts of the language of the regular
expression. -/
theorem Regex.rmatch_iff (r : Regex) (w : List Char) :
    r.rmatch w = true ↔ Regex.Matches r w := by
  induction w generalizing r with
  | nil => exact Regex.nullable_iff r
  | cons x w ih =>
    unfold Regex.rmatch
    rw [ih (r.deriv x), Regex.deriv_iff]

/-! ## What the patterns of the validators accept -/

theorem Regex.Matches_star_cls_iff (k : CharClass) (w : List Char) :
    Regex.Matches (Regex.star (Regex.cls k)) w ↔ ∀ c ∈ w, k.contains c = true := by
  induction w with
  | nil => simpa using Regex.Matches.starNil (Regex.cls k)
  | cons x w ih =>
    constructor
    · intro h
      obtain ⟨u, v, huv, hu, hv⟩ := Regex.Matches_star_cons _ x w h
      obtain ⟨y, hy, hc⟩ := (Regex.Matches_cls_iff k _).mp hu
      simp only [List.cons.injEq] at hy
      obtain ⟨hxy, hu0⟩ := hy
      subst hxy hu0
      simp only [List.nil_append] at huv
      subst huv
      intro c hcm
      rcases List.mem_cons.mp hcm with h1 | h1
      · rw [h1]
        exact hc
      · exact (ih.mp hv) c h1
    · intro h
      have h1 : Regex.Matches (Regex.cls k) [x] :=
        Regex.Matches.cls k x (h x (List.mem_cons_self x w))
      have h2 : Regex.Matches (Regex.star (Regex.cls k)) w :=
        ih.mpr (fun c hc => h c (List.mem_cons_of_mem x hc))
      exact Regex.Matches.starCons (Regex.cls k) [x] w h1 h2

theorem Regex.Matches_opt_iff (r : Regex) (w : List Char) :
    Regex.Matches (Regex.opt r) w ↔ Regex.Matches r w ∨ w = [] := by
  unfold Regex.opt
  rw [Regex.Matches_alt_iff, Regex.Matches_eps_iff]

theorem Regex.Matches_cls_cat_iff (k : CharClass) (r : Regex) (w : List Char) :
    Regex.Matches (Regex.cat (Regex.cls k) r) w
      ↔ ∃ x v, w = x :: v ∧ k.contains x = true ∧ Regex.Matches r v := by
  rw [Regex.Matches_cat_iff]
  constructor
  · rintro ⟨u, v, huv, hu, hv⟩
    obtain ⟨x, hx, hc⟩ := (Regex.Matches_cls_iff k u).mp hu
    subst hx
    exact ⟨x, v, huv, hc, hv⟩
  · rintro ⟨x, v, hw, hc, hv⟩
    exact ⟨[x], v, hw, Regex.Matches.cls k x hc, hv⟩

theorem Regex.Matches_upTo_cls_iff (k : CharClass) (n : Nat) (w : List Char) :
    Regex.Matches (Regex.upTo (Regex.cls k) n) w
      ↔ w.length ≤ n ∧ ∀ c ∈ w, k.contains c = true := by
  induction n generalizing w with
  | zero =>
    simp only [Regex.upTo, Regex.Matches_eps_iff]
    constructor
    · intro h
      subst h
      simp
    · intro h
      exact List.length_eq_zero.mp (Nat.le_zero.mp h.1)
  | succ n ih =>
    simp only [Regex.upTo, Regex.Matches_opt_iff, Regex.Matches_cls_cat_iff]
    constructor
    · rintro (⟨x, v, hw, hc, hv⟩ | hw)
      · subst hw
        obtain ⟨hl, ha⟩ := (ih v).mp hv
        refine ⟨by simp only [List.length_cons]; omega, ?_⟩
        intro c hcm
        rcases List.mem_cons.mp hcm with h1 | h1
        · rw [h1]
          exact hc
        · exact ha c h1
      · subst hw
        simp
    · rintro ⟨hl, ha⟩
      cases w with
      | nil => exact Or.inr rfl
      | cons x v =>
        refine Or.inl ⟨x, v, rfl, ha x (List.mem_cons_self x v), (ih v).mpr ⟨?_, ?_⟩⟩
        · simp only [List.length_cons] at hl
          omega
        · exact fun c hc => ha c (List.mem_cons_of_mem x hc)

theorem Regex.Matches_times_cls_iff (k : CharClass) (n : Nat) (rest : Regex) (w : List Char) :
    Regex.Matches (Regex.times (Regex.cls k) n rest) w
      ↔ ∃ u v, w = u ++ v ∧ u.length = n ∧ (∀ c ∈ u, k.contains c = true)
          ∧ Regex.Matches rest v := by
  induction n generalizing w with
  | zero =>
    simp only [Regex.times]
    constructor
    · intro h
      exact ⟨[], w, rfl, rfl, by simp, h⟩
    · rintro ⟨u, v, hw, hl, _, hv⟩
      have hu : u = [] := List.length_eq_zero.mp hl
      subst hu
      simp only [List.nil_append] at hw
      subst hw
      exact hv
  | succ n ih =>
    simp only [Regex.times, Regex.Matches_cls_cat_iff]
    constructor
    · rintro ⟨x, t, hw, hc, ht⟩
      obtain ⟨u, v, htuv, hl, ha, hv⟩ := (ih t).mp ht
      refine ⟨x :: u, v, by simp [hw, htuv], by simp [hl], ?_, hv⟩
      intro c hcm
      rcases List.mem_cons.mp hcm with h1 | h1
      · rw [h1]
        exact hc
      · exact ha c h1
    · rintro ⟨u, v, hw, hl, ha, hv⟩
      cases u with
      | nil => simp at hl
      | cons x u1 =>
        refine ⟨x, u1 ++ v, by simp [hw], ha x (List.mem_cons_self x u1), (ih _).mpr ?_⟩
        refine ⟨u1, v, rfl, ?_, fun c hc => ha c (List.mem_cons_of_mem x hc), hv⟩
        simp only [List.length_cons] at hl
        omega

/-- The quantifier `{lo,hi}` on a character class: between `lo` and `hi` characters, all
of the class. -/
theorem Regex.Matches_rep_cls_iff (k : CharClass) (lo hi : Nat) (hle : lo ≤ hi)
    (w : List Char) :
    Regex.Matches (Regex.rep (Regex.cls k) lo hi) w
      ↔ lo ≤ w.length ∧ w.length ≤ hi ∧ ∀ c ∈ w, k.contains c = true := by
  unfold Regex.rep
  rw [Regex.Matches_times_cls_iff]
  constructor
  · rintro ⟨u, v, hw, hl, ha, hv⟩
    obtain ⟨hvl, hva⟩ := (Regex.Matches_upTo_cls_iff k _ v).mp hv
    subst hw
    refine ⟨by simp only [List.length_append]; omega,
      by simp only [List.length_append]; omega, ?_⟩
    intro c hc
    rcases List.mem_append.mp hc with h1 | h1
    · exact ha c h1
    · exact hva c h1
  · rintro ⟨h1, h2, ha⟩
    refine ⟨w.take lo, w.drop lo, (List.take_append_drop lo w).symm, ?_, ?_, ?_⟩
    · simp only [List.length_take]
      omega
    · exact fun c hc => ha c (List.mem_of_mem_take hc)
    · refine (Regex.Matches_upTo_cls_iff k _ _).mpr ⟨?_, ?_⟩
      · simp only [List.length_drop]
        omega
      · exact fun c hc => ha c (List.mem_of_mem_drop hc)

/-- Shape shared by the `alias` pattern (`lo = 0`) and the modifier `name` pattern
(`lo = 1`): an edge character, `lo` to 32 middle characters, an optional edge
character. -/
theorem edge_middle_edge_iff (lo : Nat) (hlo : lo ≤ 32) (w : List Char) :
    Regex.Matches (Regex.cat (Regex.cls classEdge)
        (Regex.cat (Regex.rep (Regex.cls classMiddle) lo 32) (Regex.opt (Regex.cls classEdge)))) w
      ↔ ∃ x mid tail, w = x :: (mid ++ tail) ∧ classEdge.contains x = true
          ∧ lo ≤ mid.length ∧ mid.length ≤ 32 ∧ (∀ c ∈ mid, classMiddle.contains c = true)
          ∧ (tail = [] ∨ ∃ y, tail = [y] ∧ classEdge.contains y = true) := by
  rw [Regex.Matches_cls_cat_iff]
  constructor
  · rintro ⟨x, v, hw, hx, hv⟩
    obtain ⟨mid, tail, hv2, hm, ht⟩ := (Regex.Matches_cat_iff _ _ v).mp hv
    obtain ⟨h1, h2, h3⟩ := (Regex.Matches_rep_cls_iff classMiddle lo 32 hlo mid).mp hm
    refine ⟨x, mid, tail, by rw [hw, hv2], hx, h1, h2, h3, ?_⟩
    rcases (Regex.Matches_opt_iff _ tail).mp ht with h | h
    · exact Or.inr ((Regex.Matches_cls_iff classEdge tail).mp h)
    · exact Or.inl h
  · rintro ⟨x, mid, tail, hw, hx, h1, h2, h3, ht⟩
    refine ⟨x, mid ++ tail, hw, hx, (Regex.Matches_cat_iff _ _ _).mpr ⟨mid, tail, rfl, ?_, ?_⟩⟩
    · exact (Regex.Matches_rep_cls_iff classMiddle lo 32 hlo mid).mpr ⟨h1, h2, h3⟩
    · rcases ht with h | h
      · exact (Regex.Matches_opt_iff _ tail).mpr (Or.inr h)
      · exact (Regex.Matches_opt_iff _ tail).mpr
          (Or.inl ((Regex.Matches_cls_iff classEdge tail).mpr h))

/-- What the `name` pattern of the regex resources accepts: a letter, then letters, digits
and hyphens, then a letter or digit, hence at least two characters. -/
theorem nameRegex_accepts_iff (value : String) :
    RegexMatches nameRegex value = true
      ↔ ∃ x mid y, value.toList = x :: (mid ++ [y]) ∧ classLetter.contains x = true
          ∧ (∀ c ∈ mid, classLetterDigitHyphen.contains c = true)
          ∧ classLetterDigit.contains y = true := by
  unfold RegexMatches MatchString nameRegex
  rw [Regex.rmatch_iff, Regex.Matches_cls_cat_iff]
  constructor
  · rintro ⟨x, v, hw, hx, hv⟩
    obtain ⟨mid, tail, hv2, hm, ht⟩ := (Regex.Matches_cat_iff _ _ v).mp hv
    obtain ⟨y, hy, hyc⟩ := (Regex.Matches_cls_iff _ tail).mp ht
    subst hy
    exact ⟨x, mid, y, by rw [hw, hv2], hx, (Regex.Matches_star_cls_iff _ mid).mp hm, hyc⟩
  · rintro ⟨x, mid, y, hw, hx, hm, hy⟩
    exact ⟨x, mid ++ [y], hw, hx, (Regex.Matches_cat_iff _ _ _).mpr
      ⟨mid, [y], rfl, (Regex.Matches_star_cls_iff _ mid).mpr hm, Regex.Matches.cls _ y hy⟩⟩

/-- Every name accepted by the `name` pattern of the regex resources has at least two
characters. -/
theorem nameRegex_accepts_two (value : String) (h : RegexMatches nameRegex value = true) :
    2 ≤ value.toList.length := by
  obtain ⟨x, mid, y, hw, _⟩ := (nameRegex_accepts_iff value).mp h
  rw [hw]
  simp

theorem classMiddle_of_not_forbidden (c : Char) (h : forbiddenOfMessage c = false) :
    classMiddle.contains c = true := by
  simp only [forbiddenOfMessage, List.any_cons, List.any_nil, Bool.or_false,
    Bool.or_eq_false_iff] at h
  simp [CharClass.contains, classMiddle, h]

theorem classEdge_of_not_forbidden (c : Char) (h : forbiddenOfMessage c = false)
    (hdot : (ClassItem.char '.').contains c = false) :
    classEdge.contains c = true := by
  simp only [forbiddenOfMessage, List.any_cons, List.any_nil, Bool.or_false,
    Bool.or_eq_false_iff] at h
  simp [CharClass.contains, classEdge, h, hdot]

theorem not_forbidden_punctuation_of_classMiddle (c : Char) (h : classMiddle.contains c = true) :
    [ClassItem.char '/', ClassItem.char ':', ClassItem.char '*', ClassItem.char '?',
      ClassItem.char (Char.ofNat 34), ClassItem.char '<', ClassItem.char '>',
      ClassItem.char '|'].any (fun i => i.contains c) = false := by
  simpa [CharClass.contains, classMiddle] using h

theorem classMiddle_of_classEdge (c : Char) (h : classEdge.contains c = true) :
    classMiddle.contains c = true := by
  simp only [CharClass.contains, classEdge, List.any_cons, List.any_nil, Bool.or_false,
    if_true, Bool.not_eq_true', Bool.or_eq_false_iff] at h
  simp [CharClass.contains, classMiddle, h]

theorem not_dot_of_classEdge (c : Char) (h : classEdge.contains c = true) :
    (ClassItem.char '.').contains c = false := by
  simp only [CharClass.contains, classEdge, List.any_cons, List.any_nil, Bool.or_false,
    if_true, Bool.not_eq_true', Bool.or_eq_false_iff] at h
  exact h.1

/-- What the `alias` pattern accepts: an edge character, at most 32 middle characters and
an optional edge character. -/
theorem aliasRegex_accepts_iff (value : String) :
    RegexMatches aliasRegex value = true
      ↔ ∃ x mid tail, value.toList = x :: (mid ++ tail) ∧ classEdge.contains x = true
          ∧ 0 ≤ mid.length ∧ mid.length ≤ 32 ∧ (∀ c ∈ mid, classMiddle.contains c = true)
          ∧ (tail = [] ∨ ∃ y, tail = [y] ∧ classEdge.contains y = true) := by
  unfold RegexMatches MatchString aliasRegex
  rw [Regex.rmatch_iff]
  exact edge_middle_edge_iff 0 (by decide) value.toList

/-- What the `name` pattern of `modifier_resource.go` accepts: an edge character, one to
32 middle characters and an optional edge character. -/
theorem modifierNameRegex_accepts_iff (value : String) :
    RegexMatches modifierNameRegex value = true
      ↔ ∃ x mid tail, value.toList = x :: (mid ++ tail) ∧ classEdge.contains x = true
          ∧ 1 ≤ mid.length ∧ mid.length ≤ 32 ∧ (∀ c ∈ mid, classMiddle.contains c = true)
          ∧ (tail = [] ∨ ∃ y, tail = [y] ∧ classEdge.contains y = true) := by
  unfold RegexMatches MatchString modifierNameRegex
  rw [Regex.rmatch_iff]
  exact edge_middle_edge_iff 1 (by decide) value.toList

/-- The part of the alias rule on the first character that the pattern does enforce: no
accepted alias begins with a dot. -/
theorem aliasRegex_first_not_dot (value : String) (h : RegexMatches aliasRegex value = true) :
    ∃ x rest, value.toList = x :: rest ∧ (ClassItem.char '.').contains x = false := by
  obtain ⟨x, mid, tail, hw, hx, _⟩ := (aliasRegex_accepts_iff value).mp h
  exact ⟨x, mid ++ tail, hw, not_dot_of_classEdge x hx⟩

/-- The part of the alias rule on forbidden characters that the pattern does enforce: no
accepted alias holds one of the characters / : * ? " < > |. -/
theorem aliasRegex_no_punctuation (value : String) (h : RegexMatches aliasRegex value = true)
    (c : Char) (hc : c ∈ value.toList) :
    [ClassItem.char '/', ClassItem.char ':', ClassItem.char '*', ClassItem.char '?',
      ClassItem.char (Char.ofNat 34), ClassItem.char '<', ClassItem.char '>',
      ClassItem.char '|'].any (fun i => i.contains c) = false := by
  obtain ⟨x, mid, tail, hw, hx, _, _, hm, ht⟩ := (aliasRegex_accepts_iff value).mp h
  apply not_forbidden_punctuation_of_classMiddle
  rw [hw] at hc
  rcases List.mem_cons.mp hc with h1 | h1
  · rw [h1]
    exact classMiddle_of_classEdge x hx
  · rcases List.mem_append.mp h1 with h2 | h2
    · exact hm c h2
    · rcases ht with h3 | ⟨y, h3, hy⟩
      · rw [h3] at h2
        cases h2
      · rw [h3] at h2
        rw [List.mem_singleton.mp h2]
        exact classMiddle_of_classEdge y hy

/-- Every name accepted by the pattern of `modifier_resource.go` has at least two
characters. -/
theorem modifierNameRegex_accepts_two (value : String)
    (h : RegexMatches modifierNameRegex value = true) : 2 ≤ value.toList.length := by
  obtain ⟨x, mid, tail, hw, _, h1, _⟩ := (modifierNameRegex_accepts_iff value).mp h
  rw [hw]
  simp only [List.length_cons, List.length_append]
  omega

theorem length_le_utf8ByteSize_go (cs : List Char) :
    cs.length ≤ String.utf8ByteSize.go cs := by
  induction cs with
  | nil => simp [String.utf8ByteSize.go]
  | cons c cs ih =>
    have hc : 0 < c.utf8Size := Char.utf8Size_pos c
    simp only [String.utf8ByteSize.go, List.length_cons]
    omega

theorem length_le_utf8ByteSize (value : String) :
    value.toList.length ≤ value.utf8ByteSize := by
  cases value with
  | mk cs => exact length_le_utf8ByteSize_go cs

/-- The part of the length rule of the modifier `name` that the validators do honour:
every value of at least two characters and at most 32 bytes that holds no forbidden
character and does not begin with a dot is accepted by the three validators, and every
accepted value has at most 32 bytes. -/
theorem ModifierResource.validateName_of_rule (value : String) (x : Char) (rest : List Char)
    (hv : value.toList = x :: rest) (h2 : rest ≠ []) (hmax : value.utf8ByteSize ≤ 32)
    (hf : ∀ c ∈ value.toList, forbiddenOfMessage c = false)
    (hdot : (ClassItem.char '.').contains x = false) :
    ModifierResource.validateName value = true := by
  have hlen := length_le_utf8ByteSize value
  rw [hv] at hlen hf
  simp only [List.length_cons] at hlen
  have hre : RegexMatches modifierNameRegex value = true := by
    rw [modifierNameRegex_accepts_iff]
    refine ⟨x, rest, [], by rw [hv, List.append_nil], ?_, ?_, by omega, ?_, Or.inl rfl⟩
    · exact classEdge_of_not_forbidden x (hf x (List.mem_cons_self x rest)) hdot
    · cases rest with
      | nil => exact absurd rfl h2
      | cons y r => simp
    · exact fun c hc => classMiddle_of_not_forbidden c (hf c (List.mem_cons_of_mem x hc))
  have h1 : 1 ≤ value.utf8ByteSize := by omega
  simp [ModifierResource.validateName, LengthAtLeast, LengthAtMost, hre, hmax, h1]

theorem ModifierResource.validateName_le (value : String)
    (h : ModifierResource.validateName value = true) : value.utf8ByteSize ≤ 32 := by
  simp only [ModifierResource.validateName, LengthAtLeast, LengthAtMost, Bool.and_eq_true,
    decide_eq_true_eq] at h
  exact h.1.2

/-! ## Claims on the echo body, `Configure` and `NewYarn` -/

/-- For every method but HEAD, a request whose body was read without error is answered
with status 200 and exactly the bytes of the request body. -/
theorem echoHandler_body_echoed (method url : String) (header : Header) (body : List UInt8)
    (hm : method ≠ "HEAD") :
    (echoHandler ⟨method, url, header, Except.ok body⟩).Status = 200
    ∧ (echoHandler ⟨method, url, header, Except.ok body⟩).Body = body := by
  simp [echoHandler, responseWrite, hm]

/-- For a HEAD request whose body was read without error the answer has status 200 and no
body. -/
theorem echoHandler_head_no_body (url : String) (header : Header) (body : List UInt8) :
    (echoHandler ⟨"HEAD", url, header, Except.ok body⟩).Status = 200
    ∧ (echoHandler ⟨"HEAD", url, header, Except.ok body⟩).Body = [] := by
  simp [echoHandler, responseWrite]

/-- The text "Failed to read request body" as bytes. -/
theorem utf8Bytes_failed_to_read :
    utf8Bytes "Failed to read request body"
      = [70, 97, 105, 108, 101, 100, 32, 116, 111, 32, 114, 101, 97, 100, 32, 114, 101, 113,
          117, 101, 115, 116, 32, 98, 111, 100, 121] := by
  decide

/-- For every method but HEAD, a request whose body could not be read is answered with
status 500, content type text/plain and the text "Failed to read request body"; nothing
of the request is echoed. -/
theorem echoHandler_read_failure (method url : String) (header : Header) (err : String)
    (hm : method ≠ "HEAD") :
    (echoHandler ⟨method, url, header, Except.error err⟩).Status = 500
    ∧ (echoHandler ⟨method, url, header, Except.error err⟩).Body
        = [70, 97, 105, 108, 101, 100, 32, 116, 111, 32, 114, 101, 97, 100, 32, 114, 101, 113,
            117, 101, 115, 116, 32, 98, 111, 100, 121]
    ∧ (echoHandler ⟨method, url, header, Except.error err⟩).Header
        = [("Content-Type", ["text/plain; charset=utf-8"])] := by
  refine ⟨rfl, ?_, ?_⟩
  · rw [← utf8Bytes_failed_to_read]
    simp [echoHandler, responseWrite, hm]
  · simp [echoHandler, writeContentType, Header.Values, Header.Del]

/-- C21 (code at the failing input): the request `HEAD /echo` with the body "hi", that is
the bytes 104 and 105, is routed to the handler and answered with status 200 and an empty
body, not with the two bytes of the request; the same request sent with POST is answered
with the two bytes, and a POST whose body cannot be read with status 500 and the bytes of
"Failed to read request body". -/
theorem C21_head_body_not_echoed :
    sampleHeadRequest.Method = "HEAD"
    ∧ sampleHeadRequest.Body = Except.ok [104, 105]
    ∧ (echoHandler sampleHeadRequest).Status = 200
    ∧ (echoHandler sampleHeadRequest).Body = []
    ∧ Header.Values (echoHandler sampleHeadRequest).Header "Content-Length" = ["2"]
    ∧ (echoHandler samplePostRequest).Status = 200
    ∧ (echoHandler samplePostRequest).Body = [104, 105]
    ∧ (echoHandler sampleFailedRequest).Status = 500
    ∧ (echoHandler sampleFailedRequest).Body
        = [70, 97, 105, 108, 101, 100, 32, 116, 111, 32, 114, 101, 97, 100, 32, 114, 101, 113,
            117, 101, 115, 116, 32, 98, 111, 100, 121] := by
  exact ⟨rfl, rfl, by decide, by decide, by decide, by decide, by decide, by decide,
    by decide⟩

/-- The diagnostics after `Configure` on provider data of another type: the error is
appended unless the collection holds it already. -/
theorem ResourceSetNested.Configure_other (r : ResourceSetNested) (diags : Diagnostics)
    (goType : String) :
    ResourceSetNested.Configure r (ProviderData.other goType) diags
      = (r, if diags.contains (unexpectedConfigureType goType) then diags
          else diags ++ [unexpectedConfigureType goType]) := rfl

/-- C22: if ProviderData is nil the client field and the diagnostics are unchanged; if it
is not an `*http.Client`, exactly one error diagnostic titled
"Unexpected Resource Configure Type" is added and the client field is unchanged, on the
empty diagnostics of a fresh response and on any diagnostics that do not hold that very
error yet; if it is an `*http.Client` the client field is set to it and no diagnostic is
added. -/
theorem C22_configure (r : ResourceSetNested) (diags : Diagnostics) (goType : String)
    (client : HttpClientPtr) :
    ResourceSetNested.Configure r ProviderData.nil diags = (r, diags)
    ∧ ResourceSetNested.Configure r (ProviderData.other goType) []
        = (r, [⟨Severity.error, "Unexpected Resource Configure Type",
            "Expected *http.Client, got: " ++ goType
              ++ ". Please report this issue to the provider developers."⟩])
    ∧ (unexpectedConfigureType goType ∉ diags →
        ResourceSetNested.Configure r (ProviderData.other goType) diags
          = (r, diags ++ [unexpectedConfigureType goType]))
    ∧ (unexpectedConfigureType goType).Summary = "Unexpected Resource Configure Type"
    ∧ (unexpectedConfigureType goType).Severity = Severity.error
    ∧ ResourceSetNested.Configure r (ProviderData.httpClient client) diags
        = (⟨client⟩, diags) := by
  refine ⟨rfl, rfl, ?_, rfl, rfl, rfl⟩
  intro h
  rw [ResourceSetNested.Configure_other, if_neg (by simpa using h)]

theorem C22_configure_witness :
    unexpectedConfigureType "string" ∉ [unhandledNull]
    ∧ ResourceSetNested.Configure ⟨none⟩ (ProviderData.other "string") [unhandledNull]
        = (⟨none⟩, [unhandledNull, ⟨Severity.error, "Unexpected Resource Configure Type",
            "Expected *http.Client, got: string. Please report this issue to the provider developers."⟩])
    ∧ ResourceSetNested.Configure ⟨none⟩ (ProviderData.other "string") []
        = (⟨none⟩, [⟨Severity.error, "Unexpected Resource Configure Type",
            "Expected *http.Client, got: string. Please report this issue to the provider developers."⟩])
    ∧ ResourceSetNested.Configure ⟨some 7⟩ ProviderData.nil [] = (⟨some 7⟩, [])
    ∧ ResourceSetNested.Configure ⟨none⟩ (ProviderData.httpClient (some 1)) []
        = (⟨some 1⟩, []) := by
  have h := C22_configure ⟨none⟩ [unhandledNull] "string" (some 1)
  have h0 := C22_configure ⟨some 7⟩ [] "string" (some 1)
  refine ⟨by decide, ?_, by decide, h0.1, by decide⟩
  rw [h.2.2.1 (by decide)]
  decide

/-- C23: for every string `name`, `NewYarn(name)` returns a `Yarn` whose `Name` is
`name`. -/
theorem C23_new_yarn_name (name : String) : (NewYarn name).Name = name := rfl

/-- The case of `TestNewYarn`: the name "test-yarn". -/
theorem C23_new_yarn_name_witness : (NewYarn "test-yarn").Name = "test-yarn" :=
  C23_new_yarn_name "test-yarn"

/-! ## Invariants of the output of `ResourceSetNestedModel.fnConvert` -/

theorem digitChar_value (k : Nat) (hk : k < 10) : (Nat.digitChar k).toNat - 48 = k := by
  interval_cases k <;> rfl

theorem decimalValue_cons (acc : Nat) (c : Char) (cs : List Char) :
    decimalValue acc (c :: cs) = decimalValue (10 * acc + (c.toNat - 48)) cs := rfl

/-- Reading back the digits that `Nat.toDigitsCore` puts in front of `ds` gives the same
number as starting from `n` and reading `ds`. -/
theorem toDigitsCore_value (fuel n : Nat) (ds : List Char) (h : n < fuel) :
    decimalValue 0 (Nat.toDigitsCore 10 fuel n ds) = decimalValue n ds := by
  induction fuel generalizing n ds with
  | zero => exact absurd h (Nat.not_lt_zero n)
  | succ fuel ih =>
    have hd : (Nat.digitChar (n % 10)).toNat - 48 = n % 10 :=
      digitChar_value (n % 10) (Nat.mod_lt n (by decide))
    unfold Nat.toDigitsCore
    dsimp only
    by_cases h0 : n / 10 = 0
    · rw [if_pos h0, decimalValue_cons, hd]
      have hn : n % 10 = n := Nat.mod_eq_of_lt (by omega)
      rw [Nat.mul_zero, Nat.zero_add, hn]
    · rw [if_neg h0, ih (n / 10) _ (by omega), decimalValue_cons, hd]
      have hn : 10 * (n / 10) + n % 10 = n := Nat.div_add_mod n 10
      rw [hn]

/-- The decimal rendering of a natural number determines the number. -/
theorem repr_injective (a b : Nat) (h : Nat.repr a = Nat.repr b) : a = b := by
  have hl : Nat.toDigits 10 a = Nat.toDigits 10 b := by
    have h2 := congrArg String.data h
    exact h2
  have ha : decimalValue 0 (Nat.toDigits 10 a) = a :=
    toDigitsCore_value (a + 1) a [] (Nat.lt_succ_self a)
  have hb : decimalValue 0 (Nat.toDigits 10 b) = b :=
    toDigitsCore_value (b + 1) b [] (Nat.lt_succ_self b)
  rw [← ha, ← hb, hl]

theorem Sprintf_injective (pre : String) (i j : Nat) (h : Sprintf pre i = Sprintf pre j) :
    i = j := by
  apply repr_injective
  have h2 := congrArg String.data h
  simp only [Sprintf, String.data_append] at h2
  exact String.ext (List.append_cancel_left h2)

theorem ResourceSetNestedModel.loopBody_ne (i j : Nat) (x y : SetNestedModel) (hij : i ≠ j) :
    (ResourceSetNestedModel.loopBody i x).Port ≠ (ResourceSetNestedModel.loopBody j y).Port := by
  rw [ResourceSetNestedModel.loopBody_Port, ResourceSetNestedModel.loopBody_Port]
  intro h
  exact hij (Sprintf_injective "port_id_" i j (TfString.value.inj h))

/-- C24: for every input sequence, also one with identical elements, the output elements
at two different indices have different ports, hence differ, and the resulting sequence
of set elements has no duplicate. -/
theorem C24_output_elements_distinct (id : TfString) (xs : List SetNestedModel) :
    (∀ (i j : Nat) (yi yj : SetNestedModel), i ≠ j →
        (ResourceSetNestedModel.converted id xs)[i]? = some yi →
        (ResourceSetNestedModel.converted id xs)[j]? = some yj →
        yi.Port ≠ yj.Port ∧ yi ≠ yj)
    ∧ (ResourceSetNestedModel.converted id xs).Nodup := by
  have key : ∀ (i j : Nat) (yi yj : SetNestedModel), i ≠ j →
      (ResourceSetNestedModel.converted id xs)[i]? = some yi →
      (ResourceSetNestedModel.converted id xs)[j]? = some yj →
      yi.Port ≠ yj.Port := by
    intro i j yi yj hij hi hj
    rw [ResourceSetNestedModel.converted_getElem?] at hi hj
    cases hxi : xs[i]? with
    | none => rw [hxi] at hi; cases hi
    | some xi =>
      cases hxj : xs[j]? with
      | none => rw [hxj] at hj; cases hj
      | some xj =>
        rw [hxi] at hi
        rw [hxj] at hj
        simp only [Option.map_some', Option.some.injEq] at hi hj
        rw [← hi, ← hj]
        exact ResourceSetNestedModel.loopBody_ne i j xi xj hij
  refine ⟨fun i j yi yj hij hi hj => ⟨key i j yi yj hij hi hj, ?_⟩, ?_⟩
  · intro h
    exact key i j yi yj hij hi hj (congrArg SetNestedModel.Port h)
  · rw [List.nodup_iff_getElem?_ne_getElem?]
    intro i j hij hj h
    have hi : i < (ResourceSetNestedModel.converted id xs).length := Nat.lt_trans hij hj
    rw [List.getElem?_eq_getElem hi, List.getElem?_eq_getElem hj] at h
    have := key i j _ _ (Nat.ne_of_lt hij) (List.getElem?_eq_getElem hi)
      (List.getElem?_eq_getElem hj)
    exact this (congrArg SetNestedModel.Port (Option.some.inj h))

theorem C24_output_elements_distinct_witness :
    (0 : Nat) ≠ 1
    ∧ (∃ yi yj, (ResourceSetNestedModel.converted TfString.null [sampleX, sampleX])[0]? = some yi
        ∧ (ResourceSetNestedModel.converted TfString.null [sampleX, sampleX])[1]? = some yj
        ∧ yi.Port ≠ yj.Port ∧ yi ≠ yj)
    ∧ (ResourceSetNestedModel.converted TfString.null [sampleX, sampleX]).Nodup := by
  have h := C24_output_elements_distinct TfString.null [sampleX, sampleX]
  refine ⟨by decide, ⟨ResourceSetNestedModel.loopBody 0 sampleX,
    ResourceSetNestedModel.loopBody 1 sampleX, by decide, by decide, ?_⟩, h.2⟩
  exact h.1 0 1 _ _ (by decide) (by decide) (by decide)

theorem ResourceSetNestedModel.loopBody_known (i : Nat) (x : SetNestedModel) :
    ∃ port mac fixedIp fixedIpV4 : String,
      (ResourceSetNestedModel.loopBody i x).Port = TfString.value port
      ∧ (ResourceSetNestedModel.loopBody i x).Mac = TfString.value mac
      ∧ (ResourceSetNestedModel.loopBody i x).FixedIp = TfString.value fixedIp
      ∧ (ResourceSetNestedModel.loopBody i x).FixedIpV4 = TfString.value fixedIpV4 := by
  cases hx : x.FixedIp with
  | null =>
    have h := ResourceSetNestedModel.loopBody_unset i x (by rw [hx]; rfl)
    exact ⟨_, _, _, _, ResourceSetNestedModel.loopBody_Port i x,
      ResourceSetNestedModel.loopBody_Mac i x, h.1, h.2⟩
  | unknown =>
    have h := ResourceSetNestedModel.loopBody_unset i x (by rw [hx]; rfl)
    exact ⟨_, _, _, _, ResourceSetNestedModel.loopBody_Port i x,
      ResourceSetNestedModel.loopBody_Mac i x, h.1, h.2⟩
  | value v =>
    have h := ResourceSetNestedModel.loopBody_set i x (by rw [hx]; rfl)
    exact ⟨_, _, v, v, ResourceSetNestedModel.loopBody_Port i x,
      ResourceSetNestedModel.loopBody_Mac i x, by rw [h.1, hx], by rw [h.2, hx]⟩

/-- C25: for every input sequence, non-empty ones in particular, every element of the
output of `fnConvert` has a known port, mac, fixed_ip and fixed_ip_v4, whatever the input
values were. -/
theorem C25_computed_fields_known (id : TfString) (xs : List SetNestedModel)
    (y : SetNestedModel) (hy : y ∈ ResourceSetNestedModel.converted id xs) :
    ∃ port mac fixedIp fixedIpV4 : String,
      y.Port = TfString.value port ∧ y.Mac = TfString.value mac
      ∧ y.FixedIp = TfString.value fixedIp ∧ y.FixedIpV4 = TfString.value fixedIpV4 := by
  obtain ⟨n, hn⟩ := List.mem_iff_getElem?.mp hy
  rw [ResourceSetNestedModel.converted_getElem?] at hn
  cases hx : xs[n]? with
  | none => rw [hx] at hn; cases hn
  | some x =>
    rw [hx] at hn
    simp only [Option.map_some', Option.some.injEq] at hn
    rw [← hn]
    exact ResourceSetNestedModel.loopBody_known n x

theorem C25_computed_fields_known_witness :
    ResourceSetNestedModel.loopBody 0 sampleX
        ∈ ResourceSetNestedModel.converted TfString.null [sampleX, sampleB]
    ∧ ∃ port mac fixedIp fixedIpV4 : String,
      (ResourceSetNestedModel.loopBody 0 sampleX).Port = TfString.value port
      ∧ (ResourceSetNestedModel.loopBody 0 sampleX).Mac = TfString.value mac
      ∧ (ResourceSetNestedModel.loopBody 0 sampleX).FixedIp = TfString.value fixedIp
      ∧ (ResourceSetNestedModel.loopBody 0 sampleX).FixedIpV4 = TfString.value fixedIpV4 :=
  ⟨by decide, C25_computed_fields_known TfString.null [sampleX, sampleB]
    (ResourceSetNestedModel.loopBody 0 sampleX) (by decide)⟩

end BGo
